import Mathlib

/-!
Shallow embedding of the option-parsing and installer-dispatch core of
`datalad_installer.py` (the `datalad-installer` script), together with
theorems settling the frozen claims about it.

Python strings are modelled as `List Char`, Python dicts as insertion-ordered
association lists, and the CPython `getopt.getopt` routine (which
`OptionParser.parse_args` delegates to) is translated faithfully, including
long-option prefix matching.  Machinery that only performs I/O (logging,
spawning processes, downloading) is abstracted into explicit environment
records; each such abstraction is noted at its definition.
-/

namespace DLI

/-- Python strings are modelled as lists of characters. -/
abbrev Tok := List Char

/-- Convenience injection of Lean string literals into the model. -/
def s (x : String) : Tok := x.data

/-- Model of Python `repr` on strings, adequate for strings without quote,
backslash or control characters (the only ones the verified claims touch). -/
def pyRepr (t : Tok) : Tok := '\'' :: (t ++ ['\''])

/-- First-match association-list lookup: Python `dict.__getitem__` /
`dict.get`, given that insertion keeps the first occurrence of a key. -/
def alookup {β : Type} : List (Tok × β) → Tok → Option β
  | [], _ => none
  | (k, v) :: rest, key => if k = key then some v else alookup rest key

/-- Python `dict` assignment `d[k] = v`: overwrite in place if the key is
present, append otherwise. -/
def aset {β : Type} : List (Tok × β) → Tok → β → List (Tok × β)
  | [], k, v => [(k, v)]
  | (k0, v0) :: rest, k, v =>
    if k0 = k then (k0, v) :: rest else (k0, v0) :: aset rest k v

/-- The `SudoConfirm` enum of the script (values "ask", "error", "ok"). -/
inductive SudoConfirm where
  | ask
  | error
  | ok
deriving DecidableEq, Repr

/-- Parsed option values stored in namespaces (Python is dynamically typed;
this sum covers every value the script's converters can produce). -/
inductive Value where
  | str : Tok → Value
  | bool : Bool → Value
  | int : Int → Value
  | path : Tok → Value
  | sudo : SudoConfirm → Value
  | strs : List Tok → Value
  | list : List Value → Value
deriving Repr

/-- Boolean equality on `Value` (the nested `list` constructor rules out the
derived instance, so equality is spelled out). -/
def Value.beq : Value → Value → Bool
  | .str a, .str b => decide (a = b)
  | .bool a, .bool b => decide (a = b)
  | .int a, .int b => decide (a = b)
  | .path a, .path b => decide (a = b)
  | .sudo a, .sudo b => decide (a = b)
  | .strs a, .strs b => decide (a = b)
  | .list a, .list b => beqList a b
  | _, _ => false
where beqList : List Value → List Value → Bool
  | [], [] => true
  | x :: xs, y :: ys => Value.beq x y && beqList xs ys
  | _, _ => false

/-- The `Value.beq` decides propositional equality. -/
def Value.beq_iff :
    ∀ (n : Nat) (a b : Value), sizeOf a < n → (Value.beq a b = true ↔ a = b) := by
  intro n
  induction n with
  | zero => intro a b h; exact absurd h (by omega)
  | succ n ih =>
    intro a b h
    cases a <;> cases b <;>
      simp only [Value.beq, Value.str.injEq, Value.bool.injEq, Value.int.injEq,
        Value.path.injEq, Value.sudo.injEq, Value.strs.injEq, Value.list.injEq] <;>
      try simp
    case list.list xs ys =>
      have hxs : sizeOf xs < n + 1 := by
        have : sizeOf (Value.list xs) = 1 + sizeOf xs := by simp
        omega
      clear h
      induction xs generalizing ys with
      | nil => cases ys <;> simp [Value.beq.beqList]
      | cons x xt ihx =>
        cases ys with
        | nil => simp [Value.beq.beqList]
        | cons y yt =>
          have h1 : sizeOf x < n := by
            have : sizeOf (x :: xt) = 1 + sizeOf x + sizeOf xt := by simp
            omega
          have h2 : sizeOf xt < n + 1 := by
            have : sizeOf (x :: xt) = 1 + sizeOf x + sizeOf xt := by simp
            omega
          simp only [Value.beq.beqList, Bool.and_eq_true, ih x y h1, ihx yt h2,
            List.cons.injEq]

instance : DecidableEq Value := fun a b =>
  decidable_of_iff (Value.beq a b = true) (Value.beq_iff (sizeOf a + 1) a b (by omega))

/-- The `Immediate` and its two subclasses `VersionRequest` and `HelpRequest`
(component, and optional `--help-TOPIC` topic). -/
inductive Immediate where
  | versionRequest
  | helpRequest (component : Option Tok) (topic : Option Tok)
deriving DecidableEq, Repr

/-- The `UsageError(message, component)`. -/
structure UsageError where
  message : Tok
  component : Option Tok
deriving DecidableEq, Repr

/-- The converter functions the script passes to `Option(converter=...)`,
identified by name; Python compares converters by object identity and all of
these are distinct module-level callables, so enum equality is faithful. -/
inductive Conv where
  | logLevel
  | path
  | sudoConfirm
  | shlexSplit
  | strSplit
deriving DecidableEq, Repr

/-- Error raised by a converter: Python `ValueError` (translated by the
parser) or `UsageError` (only `parse_log_level` raises this directly). -/
inductive ConvErr where
  | valueError (message : Tok)
  | usage (message : Tok)
deriving DecidableEq, Repr

/-- Model of Python `int(string)` restricted to an optional sign followed by
decimal digits (the script never feeds it anything fancier). -/
def pyParseInt (t : Tok) : Option Int :=
  let digits : Tok → Option Nat := fun ds =>
    if ds = [] ∨ ¬ ds.all Char.isDigit then none
    else some (ds.foldl (fun acc c => acc * 10 + (c.toNat - 48)) 0)
  match t with
  | '-' :: rest => (digits rest).map (fun n => -(n : Int))
  | '+' :: rest => (digits rest).map (fun n => (n : Int))
  | _ => (digits t).map (fun n => (n : Int))

/-- The `parse_log_level`: numeric levels pass through, otherwise the upper-cased
name must be one of the five standard logging levels, else `UsageError`. -/
def parse_log_level (level : Tok) : Except ConvErr Value :=
  match pyParseInt level with
  | some n => .ok (.int n)
  | none =>
    let up := level.map Char.toUpper
    if up = s "CRITICAL" then .ok (.int 50)
    else if up = s "ERROR" then .ok (.int 40)
    else if up = s "WARNING" then .ok (.int 30)
    else if up = s "INFO" then .ok (.int 20)
    else if up = s "DEBUG" then .ok (.int 10)
    else .error (.usage (s "Invalid log level: " ++ pyRepr level))

/-- Whitespace tokenisation shared by the models of `shlex.split` and
`str.split`.  Quoting rules of `shlex` are not modelled: no verified claim
evaluates these converters on quoted input. -/
def splitWs (t : Tok) : List Tok :=
  let step := fun (acc : List Tok × Tok) (c : Char) =>
    if c = ' ' ∨ c = '\t' ∨ c = '\n' then
      (if acc.2 = [] then acc.1 else acc.1 ++ [acc.2], [])
    else (acc.1, acc.2 ++ [c])
  let fin := t.foldl step ([], [])
  if fin.2 = [] then fin.1 else fin.1 ++ [fin.2]

/-- Apply a converter to a raw argument string. -/
def applyConv : Conv → Tok → Except ConvErr Value
  | .logLevel, t => parse_log_level t
  | .path, t => .ok (.path t)
  | .sudoConfirm, t =>
    if t = s "ask" then .ok (.sudo .ask)
    else if t = s "error" then .ok (.sudo .error)
    else if t = s "ok" then .ok (.sudo .ok)
    else .error (.valueError (pyRepr t ++ s " is not a valid SudoConfirm"))
  | .shlexSplit, t => .ok (.strs (splitWs t))
  | .strSplit, t => .ok (.strs (splitWs t))

deriving instance DecidableEq for Except

/-- A parse namespace: Python `dict[str, Any]` in insertion order. -/
abbrev Dict := List (Tok × Value)

/-- The `namespace[dest] = value`. -/
def dictSet (d : Dict) (k : Tok) (v : Value) : Dict := aset d k v

/-- The `namespace.setdefault(dest, []).append(value)`.  The non-list branch is
unreachable: a multi-valued destination only ever holds a list. -/
def dictSetdefaultAppend (d : Dict) (k : Tok) (v : Value) : Dict :=
  match alookup d k with
  | some (.list vs) => aset d k (.list (vs ++ [v]))
  | some _ => aset d k (.list [v])
  | none => aset d k (.list [v])

/-- Errors out of `Option.process`: a `UsageError` (component filled in by
the calling parser, which overwrites it unconditionally) or a `ValueError`
message from a converter. -/
inductive ProcErr where
  | usage (message : Tok)
  | valueError (message : Tok)
deriving DecidableEq, Repr

/-- The `Option` class: flag spellings, destination, and processing policy.
`dest` is stored post-derivation (first long option, dashes replaced by
underscores, unless given explicitly), exactly as `Option.__init__` leaves
it.  `Option.__eq__` compares all attributes, which structural equality
mirrors (converters are shared module-level callables, see `Conv`). -/
structure Opt where
  shortopts : List Char
  longopts : List Tok
  dest : Tok
  is_flag : Bool
  converter : Option Conv
  multiple : Bool
  immediate : Option Immediate
  metavar : Option Tok
  choices : Option (List Tok)
  help : Option Tok
deriving DecidableEq, Repr

/-- The `Option.option_name`: display name (first long option, else first
short option; the constructor guarantees one exists). -/
def Opt.option_name (o : Opt) : Tok :=
  match o.longopts with
  | l :: _ => s "--" ++ l
  | [] =>
    match o.shortopts with
    | c :: _ => ['-', c]
    | [] => []

/-- The converter step of `Option.process`: identity when no converter is
set, else the converter applied to the raw argument. -/
def convVal (o : Opt) (argument : Tok) : Except ConvErr Value :=
  match o.converter with
  | none => .ok (.str argument)
  | some c => applyConv c argument

/-- The `Option.process(namespace, argument)`: immediate short-circuit, flag
storage, choices validation, conversion, and single/multiple storage. -/
def Opt.process (o : Opt) (ns : Dict) (argument : Tok) :
    Except ProcErr (Dict × Option Immediate) :=
  match o.immediate with
  | some i => .ok (ns, some i)
  | none =>
    if o.is_flag then .ok (dictSet ns o.dest (.bool true), none)
    else
      let conv : Except ProcErr Value :=
        if o.choices.isSome ∧ ¬ (o.choices.getD []).contains argument then
          .error (.usage (s "Invalid choice for " ++ o.option_name ++
            s " option: " ++ pyRepr argument))
        else
          match convVal o argument with
          | .ok v => .ok v
          | .error (.valueError m) => .error (.valueError m)
          | .error (.usage m) => .error (.usage m)
      match conv with
      | .error e => .error e
      | .ok v =>
        if o.multiple then .ok (dictSetdefaultAppend ns o.dest v, none)
        else .ok (dictSet ns o.dest v, none)

/-- The `OptionParser` dataclass: owning component (`none` = global),
whether a trailing `=VERSION` is permitted, and the mapping from every
registered spelling (with leading hyphens) to its `Opt`, in insertion
order.  An `Opt` registered under several spellings appears once per
spelling, exactly like the values of the Python dict. -/
structure OptParser where
  component : Option Tok
  versioned : Bool
  options_map : List (Tok × Opt)
deriving DecidableEq, Repr

/-- The `OptionParser.add_option`: a no-op when an equal option is already
registered under the same display name; otherwise every spelling must be
fresh (first clash raises `ValueError`, shorts checked before longs, before
anything is inserted) and the option is then registered under each of its
short spellings followed by each of its long spellings. -/
def OptParser.add_option (p : OptParser) (option : Opt) : Except Tok OptParser :=
  if alookup p.options_map option.option_name = some option then .ok p
  else
    match option.shortopts.find? (fun c => (alookup p.options_map ['-', c]).isSome) with
    | some c => .error (s "Option -" ++ [c] ++ s " registered more than once")
    | none =>
      match option.longopts.find? (fun l => (alookup p.options_map (s "--" ++ l)).isSome) with
      | some l => .error (s "Option --" ++ l ++ s " registered more than once")
      | none =>
        .ok { p with
          options_map := p.options_map
            ++ option.shortopts.map (fun c => (['-', c], option))
            ++ option.longopts.map (fun l => (s "--" ++ l, option)) }

/-- The implicit `-h`/`--help` option every parser receives in
`OptionParser.__post_init__`. -/
def helpOpt (component : Option Tok) : Opt :=
  { shortopts := ['h'], longopts := [s "help"], dest := s "help",
    is_flag := true, converter := none, multiple := false,
    immediate := some (.helpRequest component none), metavar := none,
    choices := none,
    help := some (s "Show this help information and exit") }

/-- The `for opt in options: self.add_option(opt)` loop (first error
aborts, exactly like the raised `ValueError`). -/
def addOptions : OptParser → List Opt → Except Tok OptParser
  | p, [] => .ok p
  | p, o :: rest =>
    match p.add_option o with
    | .error e => .error e
    | .ok p1 => addOptions p1 rest

/-- The `OptionParser(component, versioned, help, options)` construction:
start empty, add the implicit help option, then the declared options. -/
def mkParser (component : Option Tok) (versioned : Bool) (options : List Opt) :
    Except Tok OptParser :=
  match OptParser.add_option ⟨component, versioned, []⟩ (helpOpt component) with
  | .error e => .error e
  | .ok withHelp => addOptions withHelp options

/-- The short-option spec string `parse_args` builds for `getopt`
(iterating `options_map.values()`, duplicates included). -/
def buildShort (p : OptParser) : List Char :=
  (p.options_map.map Prod.snd).flatMap
    (fun o => o.shortopts.flatMap (fun c => if o.is_flag then [c] else [c, ':']))

/-- The long-option spec list `parse_args` builds for `getopt`. -/
def buildLong (p : OptParser) : List Tok :=
  (p.options_map.map Prod.snd).flatMap
    (fun o => o.longopts.map (fun l => if o.is_flag then l else l ++ ['=']))

/-- The `str.partition("=")` restricted to what the callers use: the text before
the first `'='` and, when one occurs, the text after it. -/
def breakOnEq : Tok → Tok × Option Tok
  | [] => ([], none)
  | c :: rest =>
    if c = '=' then ([], some rest)
    else ((breakOnEq rest).1.cons c, (breakOnEq rest).2)

/-- CPython `getopt.long_has_args`: resolve a possibly-abbreviated long
option against the spec list (prefix matching), returning whether it takes
an argument and the resolved name. -/
def long_has_args (opt : Tok) (longopts : List Tok) : Except Tok (Bool × Tok) :=
  let possibilities := longopts.filter (fun o => opt.isPrefixOf o)
  if possibilities = [] then
    .error (s "option --" ++ opt ++ s " not recognized")
  else if opt ∈ possibilities then .ok (false, opt)
  else if (opt ++ ['=']) ∈ possibilities then .ok (true, opt)
  else if 1 < possibilities.length then
    .error (s "option --" ++ opt ++ s " not a unique prefix")
  else
    match possibilities with
    | [unique] =>
      if unique.getLast? = some '=' then .ok (true, unique.dropLast)
      else .ok (false, opt)
    | _ => .error (s "internal: possibilities not a singleton")

/-- CPython `getopt.do_longs`: split a `--opt[=value]` token, resolve it,
and collect its argument (from the token or from the next argument). -/
def do_longs (opt0 : Tok) (longopts : List Tok) (args : List Tok) :
    Except Tok ((Tok × Tok) × List Tok) :=
  match long_has_args (breakOnEq opt0).1 longopts with
  | .error e => .error e
  | .ok (hasArg, opt) =>
    if hasArg then
      match (breakOnEq opt0).2 with
      | some v => .ok ((s "--" ++ opt, v), args)
      | none =>
        match args with
        | [] => .error (s "option --" ++ opt ++ s " requires argument")
        | x :: rest => .ok ((s "--" ++ opt, x), rest)
    else
      match (breakOnEq opt0).2 with
      | some _ => .error (s "option --" ++ opt ++ s " must not have an argument")
      | none => .ok ((s "--" ++ opt, []), args)

/-- CPython `getopt.short_has_arg`: whether the first occurrence of the
option character in the short spec is followed by `':'`; unknown characters
are an error. -/
def short_has_arg (c : Char) : List Char → Except Tok Bool
  | [] => .error (s "option -" ++ [c] ++ s " not recognized")
  | x :: rest =>
    if c = x ∧ c ≠ ':' then .ok (decide (rest.head? = some ':'))
    else short_has_arg c rest

/-- The branch of CPython `getopt.do_shorts` in which an argument-taking
option character has exhausted its cluster and absorbs the next token. -/
def do_shorts_take_arg (c : Char) : List Tok → Except Tok (List (Tok × Tok) × List Tok)
  | [] => .error (s "option -" ++ [c] ++ s " requires argument")
  | x :: rest => .ok ([(['-', c], x)], rest)

/-- CPython `getopt.do_shorts`: process a `-abc`-style cluster; an
argument-taking character absorbs the remainder of the cluster or, when the
cluster is exhausted, the next argument token. -/
def do_shorts : List Char → List Char → List Tok →
    Except Tok (List (Tok × Tok) × List Tok)
  | [], _, args => .ok ([], args)
  | c :: restStr, shortopts, args =>
    match short_has_arg c shortopts with
    | .error e => .error e
    | .ok b =>
      if b then
        if restStr = [] then do_shorts_take_arg c args
        else .ok ([(['-', c], restStr)], args)
      else
        match do_shorts restStr shortopts args with
        | .error e => .error e
        | .ok (ps, args2) => .ok ((['-', c], []) :: ps, args2)

/-- A token at which the getopt scan stops: anything that does not start
with `-`, or the bare token `-`. -/
def isNonOption (a : Tok) : Prop := a.take 1 ≠ ['-'] ∨ a = ['-']

instance (a : Tok) : Decidable (isNonOption a) := by
  unfold isNonOption; infer_instance

/-- CPython `getopt.getopt`'s scanning loop, with an explicit fuel so the
recursion is structural (each iteration consumes at least the head token,
so `args.length` fuel always suffices; the fuel-exhausted branch is
unreachable from `getopt`). -/
def getoptF (shortopts : List Char) (longopts : List Tok) :
    Nat → List Tok → Except Tok (List (Tok × Tok) × List Tok)
  | _, [] => .ok ([], [])
  | 0, rest => .ok ([], rest)
  | fuel + 1, a :: rest =>
    if isNonOption a then .ok ([], a :: rest)
    else if a = ['-', '-'] then .ok ([], rest)
    else if a.take 2 = ['-', '-'] then
      match do_longs (a.drop 2) longopts rest with
      | .error e => .error e
      | .ok (pr, rest2) =>
        match getoptF shortopts longopts fuel rest2 with
        | .error e => .error e
        | .ok (ps, leftover) => .ok (pr :: ps, leftover)
    else
      match do_shorts (a.drop 1) shortopts rest with
      | .error e => .error e
      | .ok (ps1, rest2) =>
        match getoptF shortopts longopts fuel rest2 with
        | .error e => .error e
        | .ok (ps2, leftover) => .ok (ps1 ++ ps2, leftover)

/-- The `getopt.getopt(args, shortopts, longopts)`. -/
def getopt (args : List Tok) (shortopts : List Char) (longopts : List Tok) :
    Except Tok (List (Tok × Tok) × List Tok) :=
  getoptF shortopts longopts args.length args

/-- Result of `OptionParser.parse_args`: an `Immediate`, or option values
plus leftover positional tokens. -/
inductive ParseOut where
  | immediate (i : Immediate)
  | res (kwargs : Dict) (leftovers : List Tok)
deriving DecidableEq, Repr

/-- The option-processing loop of `OptionParser.parse_args`: look each
getopt pair up, run `Option.process`, translate converter `ValueError`s
into usage errors tagged `"repr(arg): msg"`, stamp the parser's component
onto usage errors, and short-circuit on an `Immediate`.  The lookup-failure
branch is unreachable for pairs produced by `getopt` against this parser's
own specs. -/
def runOpts (p : OptParser) : List (Tok × Tok) → Dict → Except UsageError (Dict ⊕ Immediate)
  | [], kwargs => .ok (.inl kwargs)
  | (o, a) :: rest, kwargs =>
    match alookup p.options_map o with
    | none => .error ⟨s "KeyError: " ++ o, p.component⟩
    | some option =>
      match option.process kwargs a with
      | .error (.valueError m) => .error ⟨pyRepr a ++ s ": " ++ m, p.component⟩
      | .error (.usage m) => .error ⟨m, p.component⟩
      | .ok (_, some i) => .ok (.inr i)
      | .ok (kwargs2, none) => runOpts p rest kwargs2

/-- The `OptionParser.parse_args`. -/
def OptParser.parse_args (p : OptParser) (args : List Tok) :
    Except UsageError ParseOut :=
  match getopt args (buildShort p) (buildLong p) with
  | .error e => .error ⟨e, p.component⟩
  | .ok (optlist, leftovers) =>
    match runOpts p optlist [] with
    | .error e => .error e
    | .ok (.inr i) => .ok (.immediate i)
    | .ok (.inl kwargs) => .ok (.res kwargs leftovers)

/-! ### The concrete options of the script

Each `Opt` below mirrors one `Option(...)` construction in the source;
`dest` is written post-derivation (first long name, `-` ↦ `_`, unless an
explicit destination was supplied, as for `envname`). -/

def versionOpt : Opt :=
  { shortopts := ['V'], longopts := [s "version"], dest := s "version",
    is_flag := true, converter := none, multiple := false,
    immediate := some .versionRequest, metavar := none, choices := none,
    help := some (s "Show program version and exit") }

def logLevelOpt : Opt :=
  { shortopts := ['l'], longopts := [s "log-level"], dest := s "log_level",
    is_flag := false, converter := some .logLevel, multiple := false,
    immediate := none, metavar := some (s "LEVEL"), choices := none,
    help := some (s "Set logging level [default: INFO]") }

def envWriteFileOpt : Opt :=
  { shortopts := ['E'], longopts := [s "env-write-file"], dest := s "env_write_file",
    is_flag := false, converter := some .path, multiple := true,
    immediate := none, metavar := none, choices := none,
    help := some (s "Append PATH modifications and other shell commands to the given file; can be given multiple times") }

def sudoOpt : Opt :=
  { shortopts := [], longopts := [s "sudo"], dest := s "sudo",
    is_flag := false, converter := some .sudoConfirm, multiple := false,
    immediate := none, metavar := none,
    choices := some [s "ask", s "error", s "ok"],
    help := some (s "How to handle sudo commands [default: ask]") }

def methodOpt : Opt :=
  { shortopts := ['m'], longopts := [s "method"], dest := s "method",
    is_flag := false, converter := none, multiple := false,
    immediate := none, metavar := none, choices := some [s "auto"],
    help := some (s "Select the installation method to use") }

def buildDepOpt : Opt :=
  { shortopts := [], longopts := [s "build-dep"], dest := s "build_dep",
    is_flag := true, converter := none, multiple := false,
    immediate := none, metavar := none, choices := none,
    help := some (s "Install build-dep instead of the package") }

def EXTRA_ARGS_OPTION : Opt :=
  { shortopts := ['e'], longopts := [s "extra-args"], dest := s "extra_args",
    is_flag := false, converter := some .shlexSplit, multiple := false,
    immediate := none, metavar := none, choices := none,
    help := some (s "Extra arguments to pass to the install command") }

def develOpt : Opt :=
  { shortopts := [], longopts := [s "devel"], dest := s "devel",
    is_flag := true, converter := none, multiple := false,
    immediate := none, metavar := none, choices := none,
    help := some (s "Install from GitHub repository") }

def extrasOpt : Opt :=
  { shortopts := ['E'], longopts := [s "extras"], dest := s "extras",
    is_flag := false, converter := none, multiple := false,
    immediate := none, metavar := some (s "EXTRAS"), choices := none,
    help := some (s "Install package extras") }

def urlOpt : Opt :=
  { shortopts := [], longopts := [s "url"], dest := s "url",
    is_flag := false, converter := none, multiple := false,
    immediate := none, metavar := some (s "URL"), choices := none,
    help := some (s "URL from which to download `*.deb` file") }

def installDirOpt : Opt :=
  { shortopts := [], longopts := [s "install-dir"], dest := s "install_dir",
    is_flag := false, converter := some .path, multiple := false,
    immediate := none, metavar := some (s "DIR"), choices := none,
    help := some (s "Directory in which to unpack the `*.deb`") }

def dmgPathOpt : Opt :=
  { shortopts := [], longopts := [s "path"], dest := s "path",
    is_flag := false, converter := some .path, multiple := false,
    immediate := none, metavar := some (s "PATH"), choices := none,
    help := some (s "Path to local `*.dmg` to install") }

def binDirOpt : Opt :=
  { shortopts := [], longopts := [s "bin-dir"], dest := s "bin_dir",
    is_flag := false, converter := some .path, multiple := false,
    immediate := none, metavar := some (s "DIR"), choices := none,
    help := some (s "Directory in which to install the program") }

def manDirOpt : Opt :=
  { shortopts := [], longopts := [s "man-dir"], dest := s "man_dir",
    is_flag := false, converter := some .path, multiple := false,
    immediate := none, metavar := some (s "DIR"), choices := none,
    help := some (s "Directory in which to install the manpage") }

def venvPathOpt : Opt :=
  { shortopts := [], longopts := [s "path"], dest := s "path",
    is_flag := false, converter := some .path, multiple := false,
    immediate := none, metavar := some (s "PATH"), choices := none,
    help := some (s "Create the venv at the given path") }

def venvExtraArgsOpt : Opt :=
  { shortopts := ['e'], longopts := [s "extra-args"], dest := s "extra_args",
    is_flag := false, converter := some .shlexSplit, multiple := false,
    immediate := none, metavar := none, choices := none,
    help := some (s "Extra arguments to pass to the venv command") }

def devPipOpt : Opt :=
  { shortopts := [], longopts := [s "dev-pip"], dest := s "dev_pip",
    is_flag := true, converter := none, multiple := false,
    immediate := none, metavar := none, choices := none,
    help := some (s "Install the development version of pip from GitHub") }

def helpVersionsOpt : Opt :=
  { shortopts := [], longopts := [s "help-versions"], dest := s "help_versions",
    is_flag := true, converter := none, multiple := false,
    immediate := some (.helpRequest (some (s "miniconda")) (some (s "versions"))),
    metavar := none, choices := none,
    help := some (s "Show a list of available Miniconda versions for this platform and exit") }

def minicondaPathOpt : Opt :=
  { shortopts := [], longopts := [s "path"], dest := s "path",
    is_flag := false, converter := some .path, multiple := false,
    immediate := none, metavar := some (s "PATH"), choices := none,
    help := some (s "Install Miniconda at the given path") }

def batchOpt : Opt :=
  { shortopts := [], longopts := [s "batch"], dest := s "batch",
    is_flag := true, converter := none, multiple := false,
    immediate := none, metavar := none, choices := none,
    help := some (s "Run in batch (noninteractive) mode") }

def channelOpt : Opt :=
  { shortopts := ['c'], longopts := [s "channel"], dest := s "channel",
    is_flag := false, converter := none, multiple := true,
    immediate := none, metavar := none, choices := none,
    help := some (s "Additional Conda channels to install packages from") }

def minicondaSpecOpt : Opt :=
  { shortopts := [], longopts := [s "spec"], dest := s "spec",
    is_flag := false, converter := some .strSplit, multiple := false,
    immediate := none, metavar := none, choices := none,
    help := some (s "Space-separated list of package specifiers to install in the Miniconda environment") }

def pythonMatchOpt : Opt :=
  { shortopts := [], longopts := [s "python-match"], dest := s "python_match",
    is_flag := false, converter := none, multiple := false,
    immediate := none, metavar := none,
    choices := some [s "major", s "minor", s "micro"],
    help := some (s "Install the same version of Python, matching to the given version level") }

def envnameOpt : Opt :=
  { shortopts := ['n'], longopts := [s "name"], dest := s "envname",
    is_flag := false, converter := none, multiple := false,
    immediate := none, metavar := some (s "NAME"), choices := none,
    help := some (s "Name of the environment") }

def condaEnvSpecOpt : Opt :=
  { shortopts := [], longopts := [s "spec"], dest := s "spec",
    is_flag := false, converter := some .strSplit, multiple := false,
    immediate := none, metavar := none, choices := none,
    help := some (s "Space-separated list of package specifiers to install in the environment") }

def condaEnvExtraArgsOpt : Opt :=
  { shortopts := ['e'], longopts := [s "extra-args"], dest := s "extra_args",
    is_flag := false, converter := some .shlexSplit, multiple := false,
    immediate := none, metavar := none, choices := none,
    help := some (s "Extra arguments to pass to the `conda create` command") }

def ndExtraArgsOpt : Opt :=
  { shortopts := ['e'], longopts := [s "extra-args"], dest := s "extra_args",
    is_flag := false, converter := some .shlexSplit, multiple := false,
    immediate := none, metavar := none, choices := none,
    help := some (s "Extra arguments to pass to the nd-configurerepo command") }

/-! ### Installer registration (`InstallableComponent.register_installer`) -/

/-- The static, registration-relevant data of an `Installer` subclass: its
`NAME` and its `OPTIONS` list. -/
structure InstallerStatic where
  name : Tok
  OPTIONS : List Opt
deriving DecidableEq, Repr

/-- Registration state of one installable component: its name, its
`OPTION_PARSER`, and its method-name → installer registry.  (In the source
`INSTALLERS` is a single dict declared on `InstallableComponent` and shared
by all subclasses; the claims under verification only concern registration
and lookup through one component, for which per-component state is an
equivalent view.) -/
structure ComponentState where
  name : Tok
  optParser : OptParser
  INSTALLERS : List (Tok × InstallerStatic)
deriving DecidableEq, Repr

/-- The `InstallableComponent.register_installer`: record the installer in the
registry, append its name to the `--method` option's `choices` (the Python
code mutates the shared list object in place, which the structural update
over every aliasing map entry reproduces), and merge the installer's own
options into the component's parser.  The two error branches model the
`KeyError`/`assert` that cannot fire for the script's installable
components. -/
def register_installer (cs : ComponentState) (inst : InstallerStatic) :
    Except Tok ComponentState :=
  let cs1 : ComponentState :=
    { cs with INSTALLERS := aset cs.INSTALLERS inst.name inst }
  match alookup cs1.optParser.options_map (s "--method") with
  | none => .error (s "KeyError: --method")
  | some mopt =>
    match mopt.choices with
    | none => .error (s "AssertionError: choices is None")
    | some chs =>
      let newOpt : Opt := { mopt with choices := some (chs ++ [inst.name]) }
      let pm := cs1.optParser.options_map.map
        (fun kv => (kv.1, if kv.2 = mopt then newOpt else kv.2))
      let p1 : OptParser := { cs1.optParser with options_map := pm }
      match addOptions p1 inst.OPTIONS with
      | .error e => .error e
      | .ok p2 => .ok { cs1 with optParser := p2 }

/-- Fold a sequence of `register_installer` calls (the class-decorator
applications at import time). -/
def registerAll : ComponentState → List InstallerStatic → Except Tok ComponentState
  | cs, [] => .ok cs
  | cs, inst :: rest =>
    match register_installer cs inst with
    | .error e => .error e
    | .ok cs1 => registerAll cs1 rest

/-- A fresh installable component: parser with the implicit help option and
the `--method` option with choices `["auto"]`, empty registry. -/
def mkInstallable (name : Tok) : Except Tok ComponentState :=
  (mkParser (some name) true [methodOpt]).map (fun p => ⟨name, p, []⟩)

/-- The `--method` choices a component state currently advertises. -/
def choicesOf (cs : ComponentState) : Option (List Tok) :=
  match alookup cs.optParser.options_map (s "--method") with
  | some mopt => mopt.choices
  | none => none

def aptStatic : InstallerStatic := ⟨s "apt", [buildDepOpt, EXTRA_ARGS_OPTION]⟩
def brewStatic : InstallerStatic := ⟨s "brew", [EXTRA_ARGS_OPTION]⟩
def pipStatic : InstallerStatic := ⟨s "pip", [develOpt, extrasOpt, EXTRA_ARGS_OPTION]⟩
/-- The `NeurodebianInstaller` subclasses `AptInstaller` and inherits `OPTIONS`. -/
def neurodebianStatic : InstallerStatic := ⟨s "neurodebian", [buildDepOpt, EXTRA_ARGS_OPTION]⟩
def debUrlStatic : InstallerStatic := ⟨s "deb-url", [urlOpt, installDirOpt, EXTRA_ARGS_OPTION]⟩
def autobuildStatic : InstallerStatic := ⟨s "autobuild", []⟩
def snapshotStatic : InstallerStatic := ⟨s "snapshot", []⟩
def condaStatic : InstallerStatic := ⟨s "conda", [EXTRA_ARGS_OPTION]⟩
def dgaTestedStatic : InstallerStatic := ⟨s "datalad/git-annex:tested", [installDirOpt]⟩
def dgaLatestStatic : InstallerStatic := ⟨s "datalad/git-annex", [installDirOpt]⟩
def dgaReleaseStatic : InstallerStatic := ⟨s "datalad/git-annex:release", [installDirOpt]⟩
def dlPackagesStatic : InstallerStatic := ⟨s "datalad/packages", [installDirOpt]⟩
def dmgStatic : InstallerStatic := ⟨s "dmg", [dmgPathOpt]⟩
def garrcGitHubStatic : InstallerStatic :=
  ⟨s "DanielDent/git-annex-remote-rclone", [binDirOpt]⟩
def downloadsRcloneStatic : InstallerStatic :=
  ⟨s "downloads.rclone.org", [binDirOpt, manDirOpt]⟩

/-- Strip an `Except` wrapper that is provably `.ok` at every use site. -/
def exGetD {ε α : Type} (e : Except ε α) (d : α) : α :=
  match e with
  | .ok a => a
  | .error _ => d

/-- Fallback state used only to strip the (provably `.ok`) `Except` wrapper
off import-time component construction. -/
def csBot : ComponentState := ⟨[], ⟨none, false, []⟩, []⟩

/-- The installers registered on `GitAnnexComponent`, in the order their
class decorators run (file order of the installer classes). -/
def gitAnnexInstallers : List InstallerStatic :=
  [aptStatic, brewStatic, neurodebianStatic, debUrlStatic, autobuildStatic,
   snapshotStatic, condaStatic, dgaTestedStatic, dgaLatestStatic,
   dgaReleaseStatic, dlPackagesStatic, dmgStatic]

def dataladInstallers : List InstallerStatic :=
  [aptStatic, brewStatic, pipStatic, debUrlStatic, condaStatic]

def rcloneInstallers : List InstallerStatic :=
  [aptStatic, brewStatic, debUrlStatic, condaStatic, downloadsRcloneStatic]

def garrcInstallers : List InstallerStatic :=
  [aptStatic, brewStatic, debUrlStatic, condaStatic, garrcGitHubStatic]

def gitAnnexCS : ComponentState :=
  exGetD ((mkInstallable (s "git-annex")).bind
    (fun cs => registerAll cs gitAnnexInstallers)) csBot

def dataladCS : ComponentState :=
  exGetD ((mkInstallable (s "datalad")).bind
    (fun cs => registerAll cs dataladInstallers)) csBot

def rcloneCS : ComponentState :=
  exGetD ((mkInstallable (s "rclone")).bind
    (fun cs => registerAll cs rcloneInstallers)) csBot

def garrcCS : ComponentState :=
  exGetD ((mkInstallable (s "git-annex-remote-rclone")).bind
    (fun cs => registerAll cs garrcInstallers)) csBot

/-- Junk parser used only to strip provably-`.ok` `Except` wrappers. -/
def opBot : OptParser := ⟨none, false, []⟩

def venvOP : OptParser :=
  exGetD (mkParser (some (s "venv")) false [venvPathOpt, venvExtraArgsOpt, devPipOpt]) opBot

def minicondaOP : OptParser :=
  exGetD (mkParser (some (s "miniconda")) true
    [helpVersionsOpt, minicondaPathOpt, batchOpt, channelOpt, minicondaSpecOpt,
     pythonMatchOpt, EXTRA_ARGS_OPTION]) opBot

def condaEnvOP : OptParser :=
  exGetD (mkParser (some (s "conda-env")) false
    [envnameOpt, condaEnvSpecOpt, condaEnvExtraArgsOpt]) opBot

def neurodebianOP : OptParser :=
  exGetD (mkParser (some (s "neurodebian")) false [ndExtraArgsOpt]) opBot

/-- The global `DataladInstaller.OPTION_PARSER`. -/
def globalOP : OptParser :=
  exGetD (mkParser none false [versionOpt, logLevelOpt, envWriteFileOpt, sudoOpt]) opBot

/-- The `DataladInstaller.COMPONENTS`, name → `OPTION_PARSER` (registration
order = file order of the `@register_component` classes); the installable
components carry their post-registration parsers. -/
def COMPONENTS : List (Tok × OptParser) :=
  [(s "venv", venvOP), (s "miniconda", minicondaOP), (s "conda-env", condaEnvOP),
   (s "neurodebian", neurodebianOP), (s "git-annex", gitAnnexCS.optParser),
   (s "datalad", dataladCS.optParser), (s "rclone", rcloneCS.optParser),
   (s "git-annex-remote-rclone", garrcCS.optParser)]

/-- The `ComponentRequest(name, kwargs)`. -/
structure ComponentRequest where
  name : Tok
  kwargs : Dict
deriving DecidableEq, Repr

/-- Result of `DataladInstaller.parse_args`: an `Immediate` or
`ParsedArgs(global_opts, components)`. -/
inductive DlParsed where
  | immediate (i : Immediate)
  | parsed (global_opts : Dict) (components : List ComponentRequest)
deriving DecidableEq, Repr

/-- The `while leftovers:` loop of `DataladInstaller.parse_args`.  Fuel is
an upper bound on iterations (each pops at least the component token, so
`leftovers.length + 1` always suffices; the fuel-exhausted branch is
unreachable from `DataladInstaller.parse_args`). -/
def componentLoop : Nat → Dict → List ComponentRequest → List Tok →
    Except UsageError DlParsed
  | _, gopts, acc, [] => .ok (.parsed gopts acc)
  | 0, _, _, _ => .error ⟨s "internal: fuel exhausted", none⟩
  | fuel + 1, gopts, acc, c :: rest =>
    let sp := breakOnEq c
    if sp.1 = [] then .error ⟨s "Component name must be nonempty", none⟩
    else
      match alookup COMPONENTS sp.1 with
      | none => .error ⟨s "Unknown component: " ++ pyRepr sp.1, none⟩
      | some cp =>
        let version := sp.2.getD []
        if version ≠ [] ∧ ¬ cp.versioned then
          .error ⟨sp.1 ++ s " component does not take a version", some sp.1⟩
        else if sp.2.isSome ∧ version = [] then
          .error ⟨s "Version must be nonempty", some sp.1⟩
        else
          match cp.parse_args rest with
          | .error e => .error e
          | .ok (.immediate i) => .ok (.immediate i)
          | .ok (.res kwargs leftovers) =>
            let kwargs2 :=
              if version ≠ [] then dictSet kwargs (s "version") (.str version)
              else kwargs
            componentLoop fuel gopts (acc ++ [⟨sp.1, kwargs2⟩]) leftovers

/-- The `DataladInstaller.parse_args`: global options first, then the
component groups. -/
def DataladInstaller.parse_args (args : List Tok) : Except UsageError DlParsed :=
  match globalOP.parse_args args with
  | .error e => .error e
  | .ok (.immediate i) => .ok (.immediate i)
  | .ok (.res gopts leftovers) => componentLoop (leftovers.length + 1) gopts [] leftovers

/-! ### Installer dispatch (`InstallableComponent.provide`) -/

/-- The `InstalledCommand(name, path, test_args)` (the `Command` base fields
plus the installed path). -/
structure InstalledCommand where
  name : Tok
  path : Tok
  test_args : List Tok
deriving DecidableEq, Repr

/-- Python exceptions relevant to dispatch: the recoverable
`MethodNotSupportedError` signal, `ValueError`, and `RuntimeError`. -/
inductive PyExc where
  | methodNotSupported (message : Tok)
  | valueError (message : Tok)
  | runtimeError (message : Tok)
deriving DecidableEq, Repr

/-- Abstract outcome of one `Installer.install` call.  `install` runs
external commands, so its result is an environment datum, not computed
here: it raises the not-supported signal, succeeds with installed-command
records, or raises some other (fatal) exception. -/
inductive InstallerOutcome where
  | notSupported (message : Tok)
  | success (bins : List InstalledCommand)
  | failure (message : Tok)
deriving DecidableEq, Repr

/-- A runtime installer instance as dispatch sees it: its `NAME` plus the
outcome its `install` call would produce in the current environment. -/
structure RtInstaller where
  name : Tok
  outcome : InstallerOutcome
deriving DecidableEq, Repr

/-- Whether this installer's `install` raises `MethodNotSupportedError`. -/
def RtInstaller.isNotSupported (i : RtInstaller) : Bool :=
  match i.outcome with
  | .notSupported _ => true
  | _ => false

/-- Run one installer's `install` call. -/
def runInstaller (i : RtInstaller) : Except PyExc (List InstalledCommand) :=
  match i.outcome with
  | .notSupported m => .error (.methodNotSupported m)
  | .success bins => .ok bins
  | .failure m => .error (.runtimeError m)

/-- The `for installer in reversed(...)`/`else` loop of
`InstallableComponent.provide`, with the list already reversed.  Returns
the names of the installers invoked (in order) together with the result;
the `for`'s `else` clause raises the fatal no-viable-method error. -/
def provideAutoLoop (cname : Tok) :
    List RtInstaller → List Tok → List Tok × Except PyExc (List InstalledCommand)
  | [], tr =>
    (tr, .error (.runtimeError (s "No viable installation method for " ++ cname)))
  | i :: rest, tr =>
    match runInstaller i with
    | .error (.methodNotSupported _) => provideAutoLoop cname rest (tr ++ [i.name])
    | .error e => (tr ++ [i.name], .error e)
    | .ok bins => (tr ++ [i.name], .ok bins)

/-- The `InstallableComponent.provide(method=...)`: explicit-method lookup via
`get_installer` (unknown name → `ValueError`, no fallback), else the
reverse-order fallback walk over the manager's `installer_stack`.  The
first component of the result records which installers were invoked. -/
def InstallableComponent.provide (cname : Tok)
    (registry : List (Tok × RtInstaller)) (stack : List RtInstaller)
    (method : Option Tok) : List Tok × Except PyExc (List InstalledCommand) :=
  if method.isSome ∧ method ≠ some (s "auto") then
    match alookup registry (method.getD []) with
    | none =>
      ([], .error (.valueError (s "Unknown installation method: " ++ method.getD [])))
    | some i => ([i.name], runInstaller i)
  else provideAutoLoop cname stack.reverse []

/-! ### `CondaInstaller.assert_supported_system` -/

/-- The `CondaInstance(basepath, name)`. -/
structure CondaInstance where
  basepath : Tok
  envname : Option Tok
deriving DecidableEq, Repr

/-- The `CondaInstaller.assert_supported_system`: raises the not-supported
signal iff the manager's `conda_stack` is empty *and* `shutil.which("conda")`
finds nothing (`which_conda` abstracts that PATH probe). -/
def CondaInstaller.assert_supported_system (conda_stack : List CondaInstance)
    (which_conda : Bool) : Except PyExc Unit :=
  if conda_stack = [] ∧ which_conda = false then
    .error (.methodNotSupported (s "Conda installation not found"))
  else .ok ()

/-! ### `DataladInstaller.main` -/

/-- Which of the three per-command post-checks failed. -/
inductive CheckFailure where
  | missing
  | notExecutable
  | testFailed
deriving DecidableEq, Repr

/-- The environment `main` runs in: what each component request's
`provide` would do (external commands), and the per-command post-check
probes (`check_exists`, `os.access(..., X_OK)`, the smoke test), plus the
platform flag. -/
structure MainEnv where
  provide : ComponentRequest → Except PyExc (List InstalledCommand)
  cmdExists : InstalledCommand → Bool
  cmdExecutable : InstalledCommand → Bool
  cmdTestOk : InstalledCommand → Bool
  on_windows : Bool

/-- The component-dispatch loop of `main`: requests are processed in
order; the first exception aborts the loop (components after it are never
dispatched).  Returns the attempted requests and either the accumulated
`new_commands` or the exception. -/
def dispatchLoop (env : MainEnv) :
    List ComponentRequest → List ComponentRequest → List InstalledCommand →
    List ComponentRequest × Except PyExc (List InstalledCommand)
  | [], tried, cmds => (tried, .ok cmds)
  | cr :: rest, tried, cmds =>
    match env.provide cr with
    | .error e => (tried ++ [cr], .error e)
    | .ok bins => dispatchLoop env rest (tried ++ [cr]) (cmds ++ bins)

/-- The `if`/`elif` chain `main` runs on one installed command; `none`
means all checks passed.  On Windows the executable-bit check is skipped. -/
def checkCmd (env : MainEnv) (c : InstalledCommand) : Option CheckFailure :=
  if ¬ env.cmdExists c then some .missing
  else if ¬ env.on_windows ∧ ¬ env.cmdExecutable c then some .notExecutable
  else if ¬ env.cmdTestOk c then some .testFailed
  else none

/-- The post-check loop of `main`: `ok` starts true, every command is
checked (failures never break the loop), and each failure is logged (the
second component collects the logged failures). -/
def postCheckLoop (env : MainEnv) :
    List InstalledCommand → Bool → List (InstalledCommand × CheckFailure) →
    Bool × List (InstalledCommand × CheckFailure)
  | [], ok, fs => (ok, fs)
  | c :: rest, ok, fs =>
    match checkCmd env c with
    | some f => postCheckLoop env rest false (fs ++ [(c, f)])
    | none => postCheckLoop env rest ok fs

/-- How a `main` run ends: with an exit code, or with an uncaught
exception from dispatch. -/
inductive MainOutcome where
  | exit (code : Nat)
  | raised (e : PyExc)
deriving DecidableEq, Repr

/-- Observable result of a `main` run: its outcome, the component requests
it attempted to dispatch, and the post-check failures it logged. -/
structure MainRun where
  outcome : MainOutcome
  dispatched : List ComponentRequest
  failures : List (InstalledCommand × CheckFailure)
deriving DecidableEq, Repr

/-- The `DataladInstaller.main` (argv already split, program name dropped):
usage errors exit 2, immediates exit 0 (the help/version printing is I/O),
an empty component list defaults to `ComponentRequest("datalad")`, dispatch
runs sequentially (first exception propagates), then the post-checks
decide exit 0 versus 1.  Logging configuration, env-write-file handling and
sudo configuration are I/O-only and omitted. -/
def DataladInstaller.main (env : MainEnv) (args : List Tok) : MainRun :=
  match DataladInstaller.parse_args args with
  | .error _ => ⟨.exit 2, [], []⟩
  | .ok (.immediate _) => ⟨.exit 0, [], []⟩
  | .ok (.parsed _ components) =>
    let components :=
      if components = [] then [(⟨s "datalad", []⟩ : ComponentRequest)] else components
    match dispatchLoop env components [] [] with
    | (tried, .error e) => ⟨.raised e, tried, []⟩
    | (tried, .ok cmds) =>
      let r := postCheckLoop env cmds true []
      ⟨.exit (if r.1 then 0 else 1), tried, r.2⟩

/-- Artificial option used to exercise the converter-`ValueError` branches
of the `Option.process` contract (no registered option of the script
reaches them within the model, because the modelled `shlex.split` cannot
fail). -/
def valueErrOpt : Opt :=
  { shortopts := [], longopts := [s "t"], dest := s "t",
    is_flag := false, converter := some .sudoConfirm, multiple := false,
    immediate := none, metavar := none, choices := none, help := none }

/-- Single-option parser hosting `valueErrOpt`, for the parser-translation
conjunct of the `Option.process` contract. -/
def valueErrParser : OptParser :=
  ⟨some (s "x"), false, [(s "--t", valueErrOpt)]⟩

/-- The freshly constructed datalad component state, before any installer
registration (used to witness single registration steps). -/
def freshDataladCS : ComponentState := exGetD (mkInstallable (s "datalad")) csBot

/-- The `freshDataladCS` after registering the apt installer. -/
def c6StepCS : ComponentState :=
  exGetD (register_installer freshDataladCS aptStatic) csBot

/-- The value `mkInstallable name` computes to (for any name): help under
`-h`/`--help`, the `--method` option with choices `["auto"]` under
`-m`/`--method`, empty registry. -/
def freshInstallableCS (name : Tok) : ComponentState :=
  ⟨name,
   ⟨some name, true,
    [(s "-h", helpOpt (some name)), (s "--help", helpOpt (some name)),
     (s "-m", methodOpt), (s "--method", methodOpt)]⟩,
   []⟩

/-- Installed-command records for exercising the post-check loop. -/
def wCmd1 : InstalledCommand := ⟨s "datalad", s "/bin/one", [s "--help"]⟩

def wCmd2 : InstalledCommand := ⟨s "git-annex", s "/bin/two", [s "--help"]⟩

/-- Environment for the post-check witness: provisioning installs `wCmd1`
and `wCmd2`; `wCmd1` fails the existence check, `wCmd2` fails its smoke
test, everything else passes; POSIX platform. -/
def wEnv : MainEnv :=
  { provide := fun _ => .ok [wCmd1, wCmd2],
    cmdExists := fun c => decide (c ≠ wCmd1),
    cmdExecutable := fun _ => true,
    cmdTestOk := fun c => decide (c ≠ wCmd2),
    on_windows := false }

/-- Parser already holding the shared `--extra-args` option, to witness
`add_option` idempotence. -/
def c10Parser : OptParser :=
  exGetD (mkParser (some (s "w")) false [EXTRA_ARGS_OPTION]) opBot

/-- A distinct option that reuses the `-e` short spelling. -/
def c10Conflict : Opt :=
  { shortopts := ['e'], longopts := [s "foo"], dest := s "foo",
    is_flag := false, converter := none, multiple := false,
    immediate := none, metavar := none, choices := none, help := none }

/-! ## Proof auxiliaries

`do_longs` and `do_shorts` depend on the tail of the argument list only
through possibly consuming its head token; the following "shape" functions
factor that dependence out, purely as a proof device. -/

/-- How a `do_longs`/`do_shorts` call relates to its argument list: a fixed
error, a fixed result leaving the arguments alone, or consumption of the
next argument token by the named option. -/
inductive LongShape where
  | err (e : Tok)
  | noConsume (pr : Tok × Tok)
  | consume (opt : Tok)
deriving DecidableEq, Repr

/-- The args-independent part of `do_longs`. -/
def do_longsShape (opt0 : Tok) (longopts : List Tok) : LongShape :=
  match long_has_args (breakOnEq opt0).1 longopts with
  | .error e => .err e
  | .ok (hasArg, opt) =>
    if hasArg then
      match (breakOnEq opt0).2 with
      | some v => .noConsume (s "--" ++ opt, v)
      | none => .consume opt
    else
      match (breakOnEq opt0).2 with
      | some _ => .err (s "option --" ++ opt ++ s " must not have an argument")
      | none => .noConsume (s "--" ++ opt, [])

/-- Shape analogue for `do_shorts`: pairs already decided, plus optionally a
final character waiting for the next argument token. -/
inductive ShortShape where
  | err (e : Tok)
  | noConsume (ps : List (Tok × Tok))
  | consume (ps : List (Tok × Tok)) (c : Char)
deriving DecidableEq, Repr

/-- The args-independent part of `do_shorts`. -/
def do_shortsShape : List Char → List Char → ShortShape
  | [], _ => .noConsume []
  | c :: restStr, shortopts =>
    match short_has_arg c shortopts with
    | .error e => .err e
    | .ok b =>
      if b then
        if restStr = [] then .consume [] c
        else .noConsume [(['-', c], restStr)]
      else
        match do_shortsShape restStr shortopts with
        | .err e => .err e
        | .noConsume ps => .noConsume ((['-', c], []) :: ps)
        | .consume ps ch => .consume ((['-', c], []) :: ps) ch

/-! ## Theorems

General lemmas about the getopt scan first, then one theorem (plus witness
or counterexample where required) per claim. -/

/-- The `do_longs` factors through its shape. -/
theorem do_longs_eq_shape (opt0 : Tok) (lo : List Tok) (args : List Tok) :
    do_longs opt0 lo args =
      match do_longsShape opt0 lo with
      | .err e => .error e
      | .noConsume pr => .ok (pr, args)
      | .consume opt =>
        match args with
        | [] => .error (s "option --" ++ opt ++ s " requires argument")
        | x :: rest => .ok ((s "--" ++ opt, x), rest) := by
  unfold do_longs do_longsShape
  split
  · rfl
  · split
    · split <;> rfl
    · split <;> rfl

/-- The `do_shorts` factors through its shape. -/
theorem do_shorts_eq_shape (optstring so : List Char) (args : List Tok) :
    do_shorts optstring so args =
      match do_shortsShape optstring so with
      | .err e => .error e
      | .noConsume ps => .ok (ps, args)
      | .consume ps c =>
        match args with
        | [] => .error (s "option -" ++ [c] ++ s " requires argument")
        | x :: rest => .ok (ps ++ [(['-', c], x)], rest) := by
  induction optstring with
  | nil => rfl
  | cons c restStr ih =>
    unfold do_shorts do_shortsShape
    split
    · rfl
    · rename_i b hb
      cases b with
      | true =>
        simp only [if_true]
        split
        · cases args <;> simp [do_shorts_take_arg]
        · simp
      | false =>
        simp only [Bool.false_eq_true, if_false]
        rw [ih]
        cases hsh : do_shortsShape restStr so with
        | err e => simp
        | noConsume ps => simp
        | consume ps ch =>
          cases args with
          | nil => simp
          | cons x rest => simp

/-- Appending further arguments extends a successful `do_longs` result. -/
theorem do_longs_extension (opt0 : Tok) (lo : List Tok) (args ext : List Tok)
    (pr : Tok × Tok) (args2 : List Tok)
    (h : do_longs opt0 lo args = .ok (pr, args2)) :
    do_longs opt0 lo (args ++ ext) = .ok (pr, args2 ++ ext) := by
  rw [do_longs_eq_shape] at h ⊢
  cases hs : do_longsShape opt0 lo with
  | err e => rw [hs] at h; exact absurd h (by simp)
  | noConsume pr2 => rw [hs] at h; simp at h; simp [h.1, h.2]
  | consume opt =>
    rw [hs] at h
    cases args with
    | nil => exact absurd h (by simp)
    | cons x rest => simp at h; simp [h.1, h.2]

/-- The `do_longs` never lengthens the argument list. -/
theorem do_longs_len (opt0 : Tok) (lo : List Tok) (args : List Tok)
    (pr : Tok × Tok) (args2 : List Tok)
    (h : do_longs opt0 lo args = .ok (pr, args2)) :
    args2.length ≤ args.length := by
  rw [do_longs_eq_shape] at h
  cases hs : do_longsShape opt0 lo with
  | err e => rw [hs] at h; exact absurd h (by simp)
  | noConsume pr2 => rw [hs] at h; simp at h; simp [h.2]
  | consume opt =>
    rw [hs] at h
    cases args with
    | nil => exact absurd h (by simp)
    | cons x rest => simp at h; simp [h.2]

/-- Appending further arguments extends a successful `do_shorts` result. -/
theorem do_shorts_extension (optstring so : List Char) (args ext : List Tok)
    (ps : List (Tok × Tok)) (args2 : List Tok)
    (h : do_shorts optstring so args = .ok (ps, args2)) :
    do_shorts optstring so (args ++ ext) = .ok (ps, args2 ++ ext) := by
  rw [do_shorts_eq_shape] at h ⊢
  cases hs : do_shortsShape optstring so with
  | err e => rw [hs] at h; exact absurd h (by simp)
  | noConsume ps2 => rw [hs] at h; simp at h; simp [h.1, h.2]
  | consume ps2 c =>
    rw [hs] at h
    cases args with
    | nil => exact absurd h (by simp)
    | cons x rest => simp at h; simp [h.1, h.2]

/-- The `do_shorts` never lengthens the argument list. -/
theorem do_shorts_len (optstring so : List Char) (args : List Tok)
    (ps : List (Tok × Tok)) (args2 : List Tok)
    (h : do_shorts optstring so args = .ok (ps, args2)) :
    args2.length ≤ args.length := by
  rw [do_shorts_eq_shape] at h
  cases hs : do_shortsShape optstring so with
  | err e => rw [hs] at h; exact absurd h (by simp)
  | noConsume ps2 => rw [hs] at h; simp at h; simp [h.2]
  | consume ps2 c =>
    rw [hs] at h
    cases args with
    | nil => exact absurd h (by simp)
    | cons x rest => simp at h; simp [h.2]

/-- The `getoptF` ignores fuel beyond the argument-list length. -/
theorem getoptF_mono (so : List Char) (lo : List Tok) :
    ∀ (n : Nat) (args : List Tok) (f g : Nat),
      args.length ≤ n → args.length ≤ f → args.length ≤ g →
      getoptF so lo f args = getoptF so lo g args := by
  intro n
  induction n with
  | zero =>
    intro args f g h1 _ _
    have hargs : args = [] := List.eq_nil_of_length_eq_zero (by omega)
    subst hargs
    cases f <;> cases g <;> rfl
  | succ n ih =>
    intro args f g hn hf hg
    cases args with
    | nil => cases f <;> cases g <;> rfl
    | cons a rest =>
      simp only [List.length_cons] at hn hf hg
      obtain ⟨f2, rfl⟩ : ∃ f2, f = f2 + 1 := ⟨f - 1, by omega⟩
      obtain ⟨g2, rfl⟩ : ∃ g2, g = g2 + 1 := ⟨g - 1, by omega⟩
      unfold getoptF
      by_cases h1 : isNonOption a
      · simp [h1]
      · simp only [h1, if_false]
        by_cases h2 : a = ['-', '-']
        · simp [h2]
        · simp only [h2, if_false]
          by_cases h3 : a.take 2 = ['-', '-']
          · simp only [h3, if_true]
            cases hdl : do_longs (a.drop 2) lo rest with
            | error e => rfl
            | ok pr =>
              obtain ⟨pr1, rest2⟩ := pr
              have hlen := do_longs_len _ _ _ _ _ hdl
              dsimp only
              rw [ih rest2 f2 g2 (by omega) (by omega) (by omega)]
          · simp only [h3, if_false]
            cases hds : do_shorts (a.drop 1) so rest with
            | error e => rfl
            | ok pr =>
              obtain ⟨ps1, rest2⟩ := pr
              have hlen := do_shorts_len _ _ _ _ _ hds
              dsimp only
              rw [ih rest2 f2 g2 (by omega) (by omega) (by omega)]

/-- Tokens appended after a non-option token never disturb a successful
getopt scan: the scan stops at that token and the new tokens simply extend
the leftovers. -/
theorem getoptF_extension (so : List Char) (lo : List Tok) (x : Tok)
    (ext : List Tok) (hx : isNonOption x) :
    ∀ (n : Nat) (args : List Tok) (o : List (Tok × Tok)) (l : List Tok),
      args.length ≤ n →
      getoptF so lo args.length args = .ok (o, l) →
      getoptF so lo (args ++ x :: ext).length (args ++ x :: ext) =
        .ok (o, l ++ x :: ext) := by
  intro n
  induction n with
  | zero =>
    intro args o l h1 h
    have hargs : args = [] := List.eq_nil_of_length_eq_zero (by omega)
    subst hargs
    simp only [getoptF] at h
    simp at h
    simp only [List.nil_append, List.length_cons]
    unfold getoptF
    simp [hx, ← h.1, ← h.2]
  | succ n ih =>
    intro args o l hn h
    cases args with
    | nil =>
      simp only [getoptF] at h
      simp at h
      simp only [List.nil_append, List.length_cons]
      unfold getoptF
      simp [hx, ← h.1, ← h.2]
    | cons a rest =>
      simp only [List.length_cons] at hn h
      simp only [List.cons_append, List.length_cons]
      unfold getoptF at h ⊢
      by_cases h1 : isNonOption a
      · simp only [h1, if_true] at h ⊢
        simp at h
        simp [← h.1, ← h.2]
      · simp only [h1, if_false] at h ⊢
        by_cases h2 : a = ['-', '-']
        · simp only [h2, if_true] at h ⊢
          simp at h
          simp [← h.1, ← h.2]
        · simp only [h2, if_false] at h ⊢
          by_cases h3 : a.take 2 = ['-', '-']
          · simp only [h3, if_true] at h ⊢
            cases hdl : do_longs (a.drop 2) lo rest with
            | error e => rw [hdl] at h; exact absurd h (by simp)
            | ok pr =>
              obtain ⟨pr1, rest2⟩ := pr
              rw [hdl] at h
              rw [do_longs_extension _ _ _ _ _ _ hdl]
              have hlen := do_longs_len _ _ _ _ _ hdl
              dsimp only at h ⊢
              rw [getoptF_mono so lo rest.length rest2 rest.length rest2.length
                (by omega) (by omega) (by omega)] at h
              cases hrec : getoptF so lo rest2.length rest2 with
              | error e => rw [hrec] at h; exact absurd h (by simp)
              | ok pr2 =>
                obtain ⟨ps, l2⟩ := pr2
                rw [hrec] at h
                simp at h
                have hext := ih rest2 ps l2 (by omega) hrec
                rw [getoptF_mono so lo (rest2 ++ x :: ext).length (rest2 ++ x :: ext)
                  (rest ++ x :: ext).length (rest2 ++ x :: ext).length
                  (by omega) (by simp; omega) (by omega), hext]
                simp [← h.1, ← h.2]
          · simp only [h3, if_false] at h ⊢
            cases hds : do_shorts (a.drop 1) so rest with
            | error e => rw [hds] at h; exact absurd h (by simp)
            | ok pr =>
              obtain ⟨ps1, rest2⟩ := pr
              rw [hds] at h
              rw [do_shorts_extension _ _ _ _ _ _ hds]
              have hlen := do_shorts_len _ _ _ _ _ hds
              dsimp only at h ⊢
              rw [getoptF_mono so lo rest.length rest2 rest.length rest2.length
                (by omega) (by omega) (by omega)] at h
              cases hrec : getoptF so lo rest2.length rest2 with
              | error e => rw [hrec] at h; exact absurd h (by simp)
              | ok pr2 =>
                obtain ⟨ps2, l2⟩ := pr2
                rw [hrec] at h
                simp at h
                have hext := ih rest2 ps2 l2 (by omega) hrec
                rw [getoptF_mono so lo (rest2 ++ x :: ext).length (rest2 ++ x :: ext)
                  (rest ++ x :: ext).length (rest2 ++ x :: ext).length
                  (by omega) (by simp; omega) (by omega), hext]
                simp [← h.1, ← h.2]

/-- Parsing an empty token list yields empty options and no leftovers, for
every parser. -/
theorem parse_args_nil (p : OptParser) : p.parse_args [] = .ok (.res [] []) := rfl

/-- C1 (amended): an immediate option short-circuits once the getopt scan
reaches its `process` call: whenever `OptionParser.parse_args` returns an
`Immediate`, appending a non-option token followed by arbitrary further
tokens leaves that `Immediate` untouched — everything from the first
non-option token on is discarded unexamined.  In particular
`["--version", "X", "--invalid"]` parses to the version request.  (The
original claim is refuted by `c1_counterexample`: option-syntax errors
*before* the first non-option token are reported even when an immediate
flag precedes them.) -/
theorem c1_immediate_halts :
    (∀ (p : OptParser) (pre : List Tok) (x : Tok) (ext : List Tok) (i : Immediate),
      isNonOption x →
      p.parse_args pre = .ok (.immediate i) →
      p.parse_args (pre ++ x :: ext) = .ok (.immediate i)) ∧
    DataladInstaller.parse_args [s "--version", s "X", s "--invalid"] =
      .ok (.immediate .versionRequest) := by
  constructor
  · intro p pre x ext i hx h
    unfold OptParser.parse_args getopt at h ⊢
    cases hg : getoptF (buildShort p) (buildLong p) pre.length pre with
    | error e => rw [hg] at h; exact absurd h (by simp)
    | ok pr =>
      obtain ⟨optlist, leftovers⟩ := pr
      rw [hg] at h
      dsimp only at h
      rw [getoptF_extension (buildShort p) (buildLong p) x ext hx pre.length pre
        optlist leftovers (le_refl _) hg]
      dsimp only
      cases hr : runOpts p optlist [] with
      | error e => rw [hr] at h; exact absurd h (by simp)
      | ok v =>
        rw [hr] at h
        cases v with
        | inl kw => exact absurd h (by simp)
        | inr i2 => simp at h; simp [h]
  · decide

/-- Witness for `c1_immediate_halts`: the extension property applied to the
global parser at the spec's own example. -/
theorem c1_immediate_halts_witness :
    isNonOption (s "X") ∧
    globalOP.parse_args ([s "--version"] ++ s "X" :: [s "--invalid"]) =
      .ok (.immediate .versionRequest) :=
  ⟨by decide,
   c1_immediate_halts.1 globalOP [s "--version"] (s "X") [s "--invalid"]
     .versionRequest (by decide) (by decide)⟩

/-- C1 counterexample: `--version` is encountered first, yet parsing
`["--version", "--invalid"]` raises the usage error about `--invalid`
rather than returning the version `Immediate` — the getopt scan validates
the whole leading option region before any option is processed. -/
theorem c1_counterexample :
    DataladInstaller.parse_args [s "--version", s "--invalid"] =
      .error ⟨s "option --invalid not recognized", none⟩ ∧
    DataladInstaller.parse_args [s "--version", s "--invalid"] ≠
      .ok (.immediate .versionRequest) := by
  constructor <;> decide

/-- The `str.partition("=")` on a token assembled as `name ++ "=" ++ version`
splits back into `name` and `version` when `name` has no `'='`. -/
theorem breakOnEq_append (name v : Tok) (h : '=' ∉ name) :
    breakOnEq (name ++ '=' :: v) = (name, some v) := by
  induction name with
  | nil => rfl
  | cons c rest ih =>
    simp only [List.mem_cons, not_or] at h
    obtain ⟨hc, hrest⟩ := h
    simp only [List.cons_append]
    unfold breakOnEq
    rw [if_neg (fun hch => hc (hch.symm)), ih hrest]

/-- C4: a `NAME=VERSION` token for a registered versioned component parses
to a `ComponentRequest` for `NAME` whose kwargs carry `version=VERSION`
(first conjunct, with the concrete instance `["datalad=0.13.0"]` next);
naming an unversioned component with a version, an empty component name,
and an empty version segment each raise the corresponding usage error. -/
theorem c4_component_version_tokens :
    (∀ (name version : Tok) (cp : OptParser),
      version ≠ [] → '=' ∉ name → name ≠ [] → name.take 1 ≠ ['-'] →
      alookup COMPONENTS name = some cp → cp.versioned = true →
      DataladInstaller.parse_args [name ++ '=' :: version] =
        .ok (.parsed [] [⟨name, [(s "version", .str version)]⟩])) ∧
    DataladInstaller.parse_args [s "datalad=0.13.0"] =
      .ok (.parsed [] [⟨s "datalad", [(s "version", .str (s "0.13.0"))]⟩]) ∧
    DataladInstaller.parse_args [s "venv=1.2.3"] =
      .error ⟨s "venv component does not take a version", some (s "venv")⟩ ∧
    DataladInstaller.parse_args [s "=1.2.3"] =
      .error ⟨s "Component name must be nonempty", none⟩ ∧
    DataladInstaller.parse_args [s "datalad="] =
      .error ⟨s "Version must be nonempty", some (s "datalad")⟩ := by
  refine ⟨?_, by decide, by decide, by decide, by decide⟩
  intro name version cp hv hne hnn hnd hlook hversioned
  have htok : isNonOption (name ++ '=' :: version) := by
    left
    cases name with
    | nil => exact absurd rfl hnn
    | cons c rest => simpa using hnd
  unfold DataladInstaller.parse_args
  have hscan : getoptF (buildShort globalOP) (buildLong globalOP) (0 + 1)
      [name ++ '=' :: version] = .ok ([], [name ++ '=' :: version]) := by
    unfold getoptF
    rw [if_pos htok]
  have hparse : globalOP.parse_args [name ++ '=' :: version] =
      .ok (.res [] [name ++ '=' :: version]) := by
    unfold OptParser.parse_args getopt
    rw [show ([name ++ '=' :: version] : List Tok).length = 0 + 1 from rfl, hscan]
    rfl
  rw [hparse]
  dsimp only
  unfold componentLoop
  rw [breakOnEq_append name version hne]
  simp only [hnn, hlook, hversioned, hv, parse_args_nil cp, componentLoop,
    dictSet, aset, List.nil_append, Option.isSome_some, not_true, and_false,
    if_false, ne_eq, not_false_iff, and_true, if_true, Bool.not_true]
  simp [hv]

/-- Witness for `c4_component_version_tokens`: its general conjunct applied
to the datalad component at version `0.13.0`. -/
theorem c4_component_version_tokens_witness :
    DataladInstaller.parse_args [s "datalad" ++ '=' :: s "0.13.0"] =
      .ok (.parsed [] [⟨s "datalad", [(s "version", .str (s "0.13.0"))]⟩]) :=
  c4_component_version_tokens.1 (s "datalad") (s "0.13.0") dataladCS.optParser
    (by decide) (by decide) (by decide) (by decide) (by decide) (by decide)

/-- The `runInstaller` raises the not-supported signal exactly on not-supported
outcomes. -/
theorem runInstaller_notSupported (i : RtInstaller) :
    i.isNotSupported = true ↔ ∃ m, runInstaller i = .error (.methodNotSupported m) := by
  cases h : i.outcome <;> simp [RtInstaller.isNotSupported, runInstaller, h]

/-- The fallback loop walks the not-supported prefix of its (already
reversed) installer list, then stops at the first other outcome. -/
theorem provideAutoLoop_eq (cname : Tok) :
    ∀ (l : List RtInstaller) (tr : List Tok),
      provideAutoLoop cname l tr =
        match l.dropWhile RtInstaller.isNotSupported with
        | [] => (tr ++ l.map RtInstaller.name,
            .error (.runtimeError (s "No viable installation method for " ++ cname)))
        | i :: _ => (tr ++ (l.takeWhile RtInstaller.isNotSupported).map RtInstaller.name
            ++ [i.name], runInstaller i) := by
  intro l
  induction l with
  | nil => intro tr; simp [provideAutoLoop]
  | cons i rest ih =>
    intro tr
    cases hns : i.isNotSupported with
    | true =>
      obtain ⟨m, hm⟩ := (runInstaller_notSupported i).mp hns
      unfold provideAutoLoop
      rw [hm]
      dsimp only
      rw [ih (tr ++ [i.name])]
      rw [List.dropWhile_cons_of_pos hns, List.takeWhile_cons_of_pos hns]
      cases List.dropWhile RtInstaller.isNotSupported rest <;> simp
    | false =>
      unfold provideAutoLoop
      rw [List.dropWhile_cons_of_neg (by simp [hns])]
      cases ho : i.outcome with
      | notSupported m =>
        rw [RtInstaller.isNotSupported, ho] at hns
        simp at hns
      | success bins => simp [runInstaller, ho, hns]
      | failure m => simp [runInstaller, ho, hns]

/-- C2: with method `None`/`"auto"`, `InstallableComponent.provide` walks
the installer stack highest-priority-first (the stack reversed), skipping
exactly the installers that raise the not-supported signal; the first
installer with any other outcome is the last one invoked, and its success
or fatal exception is the result; when every installer signals
not-supported, all are invoked once and the fatal "No viable installation
method" error is raised.  With distinct installer names, no installer is
invoked twice. -/
theorem c2_auto_fallback :
    ∀ (cname : Tok) (registry : List (Tok × RtInstaller)) (stack : List RtInstaller)
      (method : Option Tok),
      (method = none ∨ method = some (s "auto")) →
      (InstallableComponent.provide cname registry stack method =
        match stack.reverse.dropWhile RtInstaller.isNotSupported with
        | [] => (stack.reverse.map RtInstaller.name,
            .error (.runtimeError (s "No viable installation method for " ++ cname)))
        | i :: _ =>
            ((stack.reverse.takeWhile RtInstaller.isNotSupported).map RtInstaller.name
              ++ [i.name], runInstaller i)) ∧
      ((stack.map RtInstaller.name).Nodup →
        (InstallableComponent.provide cname registry stack method).1.Nodup) := by
  intro cname registry stack method hm
  have hauto : InstallableComponent.provide cname registry stack method =
      provideAutoLoop cname stack.reverse [] := by
    unfold InstallableComponent.provide
    rcases hm with rfl | rfl <;> simp
  constructor
  · rw [hauto, provideAutoLoop_eq]
    cases List.dropWhile RtInstaller.isNotSupported stack.reverse <;> simp
  · intro hnd
    rw [hauto, provideAutoLoop_eq]
    have hrev : (stack.reverse.map RtInstaller.name).Nodup := by
      rw [List.map_reverse]
      exact List.nodup_reverse.mpr hnd
    cases hdw : List.dropWhile RtInstaller.isNotSupported stack.reverse with
    | nil => simpa using hrev
    | cons i restd =>
      dsimp only
      have h1 : List.Sublist
          (stack.reverse.takeWhile RtInstaller.isNotSupported ++ [i])
          (stack.reverse.takeWhile RtInstaller.isNotSupported ++ i :: restd) := by
        simp
      have h2 : stack.reverse.takeWhile RtInstaller.isNotSupported ++ i :: restd =
          stack.reverse := by
        rw [← hdw]
        exact List.takeWhile_append_dropWhile _ _
      rw [h2] at h1
      have := hrev.sublist (h1.map RtInstaller.name)
      simpa using this

/-- Witness for `c2_auto_fallback`: a stack whose reversal is
`[A (not supported), B (succeeds), C (would succeed)]` invokes exactly
`A` then `B`, once each, and never `C`. -/
theorem c2_auto_fallback_witness :
    InstallableComponent.provide (s "datalad") []
      [⟨s "C", .success []⟩,
       ⟨s "B", .success [⟨s "datalad", s "/tmp/bin/datalad", [s "--help"]⟩]⟩,
       ⟨s "A", .notSupported (s "A unsupported")⟩] none =
      ([s "A", s "B"],
        .ok [⟨s "datalad", s "/tmp/bin/datalad", [s "--help"]⟩]) :=
  ((c2_auto_fallback (s "datalad") []
      [⟨s "C", .success []⟩,
       ⟨s "B", .success [⟨s "datalad", s "/tmp/bin/datalad", [s "--help"]⟩]⟩,
       ⟨s "A", .notSupported (s "A unsupported")⟩] none (Or.inl rfl)).1).trans
    (by decide)

/-- C3: with an explicitly named method other than `"auto"`, `provide`
looks the name up in the component's installer registry — an unknown name
is an immediate `ValueError` with nothing invoked — and invokes exactly
the named installer with no fallback; if it raises the not-supported
signal, that exception propagates (fatally) and no other installer is
invoked. -/
theorem c3_explicit_method :
    ∀ (cname m : Tok) (registry : List (Tok × RtInstaller)) (stack : List RtInstaller),
      m ≠ s "auto" →
      (InstallableComponent.provide cname registry stack (some m) =
        match alookup registry m with
        | none => ([], .error (.valueError (s "Unknown installation method: " ++ m)))
        | some i => ([i.name], runInstaller i)) ∧
      (∀ (i : RtInstaller) (msg : Tok), alookup registry m = some i →
        i.outcome = .notSupported msg →
        InstallableComponent.provide cname registry stack (some m) =
          ([i.name], .error (.methodNotSupported msg))) := by
  intro cname m registry stack hm
  have hbranch : InstallableComponent.provide cname registry stack (some m) =
      match alookup registry m with
      | none => ([], .error (.valueError (s "Unknown installation method: " ++ m)))
      | some i => ([i.name], runInstaller i) := by
    unfold InstallableComponent.provide
    rw [if_pos (by simp [hm])]
    rfl
  refine ⟨hbranch, ?_⟩
  intro i msg hl ho
  rw [hbranch, hl]
  simp [runInstaller, ho]

/-- Witness for `c3_explicit_method`: an unknown method name errors with
nothing invoked, and `--method apt` with a not-supported apt installer
fails fatally without trying the viable installer on the stack. -/
theorem c3_explicit_method_witness :
    InstallableComponent.provide (s "datalad")
      [(s "apt", ⟨s "apt", .notSupported (s "apt-get command not found")⟩)]
      [⟨s "conda", .success []⟩] (some (s "apt")) =
      ([s "apt"], .error (.methodNotSupported (s "apt-get command not found"))) :=
  (c3_explicit_method (s "datalad") (s "apt")
      [(s "apt", ⟨s "apt", .notSupported (s "apt-get command not found")⟩)]
      [⟨s "conda", .success []⟩] (by decide)).2
    ⟨s "apt", .notSupported (s "apt-get command not found")⟩
    (s "apt-get command not found") (by decide) (by decide)

/-- C8: `CondaInstaller.assert_supported_system` accepts iff the manager's
conda stack is non-empty or a system `conda` is on PATH, and raises the
not-supported signal exactly when the stack is empty and no binary is
found — the intended (non-inverted) semantics, which this code has. -/
theorem c8_conda_assert_supported :
    ∀ (conda_stack : List CondaInstance) (which_conda : Bool),
      (CondaInstaller.assert_supported_system conda_stack which_conda = .ok () ↔
        (conda_stack ≠ [] ∨ which_conda = true)) ∧
      (CondaInstaller.assert_supported_system conda_stack which_conda =
          .error (.methodNotSupported (s "Conda installation not found")) ↔
        (conda_stack = [] ∧ which_conda = false)) := by
  intro conda_stack which_conda
  unfold CondaInstaller.assert_supported_system
  by_cases h : conda_stack = [] ∧ which_conda = false
  · rw [if_pos h]
    constructor
    · simp [h.1, h.2]
    · simp [h.1, h.2]
  · rw [if_neg h]
    rcases not_and_or.mp h with h1 | h2
    · constructor
      · simp [h1]
      · simp [h1]
    · have hw : which_conda = true := by
        cases which_conda
        · exact absurd rfl h2
        · rfl
      constructor
      · simp [hw]
      · simp [hw]

/-- C5 (amended): the full `Option.process` contract.  (a) an immediate
payload is returned unchanged with the namespace untouched; (b) a boolean
flag without immediate payload ignores the argument and stores `True`
under the destination — this case is what refutes the claim as stated, see
`c5_counterexample`; (c) a non-flag option with a choices list rejects an
argument outside it with a usage error naming the offending value; (d) a
converter `ValueError` propagates out of `process`; (e) otherwise the
converted value (identity if no converter) is stored under the
destination, appended to a list if multi-valued and overwriting otherwise;
(f) the calling parser translates a converter `ValueError` into a usage
error `repr(arg): msg` carrying the parser's owning component. -/
theorem c5_process_contract :
    (∀ (o : Opt) (ns : Dict) (a : Tok) (i : Immediate),
      o.immediate = some i → o.process ns a = .ok (ns, some i)) ∧
    (∀ (o : Opt) (ns : Dict) (a : Tok),
      o.immediate = none → o.is_flag = true →
      o.process ns a = .ok (dictSet ns o.dest (.bool true), none)) ∧
    (∀ (o : Opt) (ns : Dict) (a : Tok) (cs : List Tok),
      o.immediate = none → o.is_flag = false →
      o.choices = some cs → a ∉ cs →
      o.process ns a = .error (.usage (s "Invalid choice for " ++ o.option_name ++
        s " option: " ++ pyRepr a))) ∧
    (∀ (o : Opt) (ns : Dict) (a : Tok) (m : Tok),
      o.immediate = none → o.is_flag = false →
      ¬ (o.choices.isSome ∧ ¬ (o.choices.getD []).contains a) →
      convVal o a = .error (.valueError m) →
      o.process ns a = .error (.valueError m)) ∧
    (∀ (o : Opt) (ns : Dict) (a : Tok) (v : Value),
      o.immediate = none → o.is_flag = false →
      ¬ (o.choices.isSome ∧ ¬ (o.choices.getD []).contains a) →
      convVal o a = .ok v →
      o.process ns a =
        .ok (if o.multiple then dictSetdefaultAppend ns o.dest v
             else dictSet ns o.dest v, none)) ∧
    (∀ (p : OptParser) (oname a : Tok) (rest : List (Tok × Tok)) (ns : Dict)
       (opt : Opt) (m : Tok),
      alookup p.options_map oname = some opt →
      opt.process ns a = .error (.valueError m) →
      runOpts p ((oname, a) :: rest) ns =
        .error ⟨pyRepr a ++ s ": " ++ m, p.component⟩) := by
  refine ⟨?_, ?_, ?_, ?_, ?_, ?_⟩
  · intro o ns a i hi
    unfold Opt.process
    rw [hi]
  · intro o ns a hi hf
    unfold Opt.process
    rw [hi, hf]
    simp
  · intro o ns a cs hi hf hcs hmem
    unfold Opt.process
    rw [hi, hf]
    simp only [Bool.false_eq_true, if_false]
    rw [if_pos (by simp [hcs]; simpa using hmem)]
  · intro o ns a m hi hf hch hconv
    unfold Opt.process
    rw [hi, hf]
    simp only [Bool.false_eq_true, if_false]
    rw [if_neg hch, hconv]
  · intro o ns a v hi hf hch hconv
    unfold Opt.process
    rw [hi, hf]
    simp only [Bool.false_eq_true, if_false]
    rw [if_neg hch, hconv]
    dsimp only
    cases o.multiple <;> simp
  · intro p oname a rest ns opt m hl hp
    unfold runOpts
    rw [hl]
    dsimp only
    rw [hp]

/-- Witness for `c5_process_contract`: each conjunct applied at a concrete
option of the script (or at `valueErrOpt` for the `ValueError` cases). -/
theorem c5_process_contract_witness :
    Opt.process versionOpt [] (s "z") = .ok ([], some .versionRequest) ∧
    Opt.process buildDepOpt [] (s "x") =
      .ok ([(s "build_dep", Value.bool true)], none) ∧
    Opt.process sudoOpt [] (s "bogus") =
      .error (.usage (s "Invalid choice for " ++ Opt.option_name sudoOpt ++
        s " option: " ++ pyRepr (s "bogus"))) ∧
    Opt.process valueErrOpt [] (s "bogus") =
      .error (.valueError (pyRepr (s "bogus") ++ s " is not a valid SudoConfirm")) ∧
    Opt.process envWriteFileOpt [] (s "/f") =
      .ok (if envWriteFileOpt.multiple
           then dictSetdefaultAppend [] envWriteFileOpt.dest (Value.path (s "/f"))
           else dictSet [] envWriteFileOpt.dest (Value.path (s "/f")), none) ∧
    runOpts valueErrParser [(s "--t", s "bogus")] [] =
      .error ⟨pyRepr (s "bogus") ++ s ": " ++
        (pyRepr (s "bogus") ++ s " is not a valid SudoConfirm"), some (s "x")⟩ :=
  ⟨c5_process_contract.1 versionOpt [] (s "z") .versionRequest (by decide),
   c5_process_contract.2.1 buildDepOpt [] (s "x") (by decide) (by decide),
   c5_process_contract.2.2.1 sudoOpt [] (s "bogus") [s "ask", s "error", s "ok"]
     (by decide) (by decide) (by decide) (by decide),
   c5_process_contract.2.2.2.1 valueErrOpt [] (s "bogus")
     (pyRepr (s "bogus") ++ s " is not a valid SudoConfirm")
     (by decide) (by decide) (by decide) (by decide),
   c5_process_contract.2.2.2.2.1 envWriteFileOpt [] (s "/f") (Value.path (s "/f"))
     (by decide) (by decide) (by decide) (by decide),
   c5_process_contract.2.2.2.2.2 valueErrParser (s "--t") (s "bogus") [] []
     valueErrOpt (pyRepr (s "bogus") ++ s " is not a valid SudoConfirm")
     (by decide) (by decide)⟩

/-- C5 counterexample: for the boolean flag `--build-dep` (no immediate
payload, no converter, no choices), the claim's case (b) — apply the
identity converter to the raw string and store it — predicts storing the
string `"x"`; `process` instead ignores the argument and stores `True`.
The claim as stated omits the flag case. -/
theorem c5_counterexample :
    buildDepOpt.immediate = none ∧
    buildDepOpt.is_flag = true ∧
    buildDepOpt.converter = none ∧
    buildDepOpt.choices = none ∧
    Opt.process buildDepOpt [] (s "x") =
      .ok ([(s "build_dep", Value.bool true)], none) ∧
    Opt.process buildDepOpt [] (s "x") ≠
      .ok ([(s "build_dep", Value.str (s "x"))], none) := by
  refine ⟨by decide, by decide, by decide, by decide, by decide, by decide⟩

/-- A hit in the left part of an appended association list survives. -/
theorem alookup_append_some {β : Type} (l1 l2 : List (Tok × β)) (k : Tok) (v : β)
    (h : alookup l1 k = some v) : alookup (l1 ++ l2) k = some v := by
  induction l1 with
  | nil => exact Option.noConfusion h
  | cons kv rest ih =>
    obtain ⟨k0, v0⟩ := kv
    rw [List.cons_append]
    unfold alookup at h ⊢
    by_cases hk : k0 = k
    · rw [if_pos hk] at h ⊢; exact h
    · rw [if_neg hk] at h ⊢; exact ih h

/-- A looked-up value is among the association list's values. -/
theorem alookup_mem_values {β : Type} (l : List (Tok × β)) (k : Tok) (v : β)
    (h : alookup l k = some v) : v ∈ l.map Prod.snd := by
  induction l with
  | nil => exact Option.noConfusion h
  | cons kv rest ih =>
    obtain ⟨k0, v0⟩ := kv
    unfold alookup at h
    by_cases hk : k0 = k
    · rw [if_pos hk] at h
      injection h with h
      rw [← h]
      simp only [List.map_cons]
      exact List.mem_cons_self _ _
    · rw [if_neg hk] at h
      simp only [List.map_cons]
      exact List.mem_cons_of_mem _ (ih h)

/-- Assignment makes the key map to the value. -/
theorem alookup_aset_self {β : Type} (l : List (Tok × β)) (k : Tok) (v : β) :
    alookup (aset l k v) k = some v := by
  induction l with
  | nil => unfold aset alookup; rw [if_pos rfl]
  | cons kv rest ih =>
    obtain ⟨k0, v0⟩ := kv
    unfold aset
    by_cases hk : k0 = k
    · rw [if_pos hk]; unfold alookup; rw [if_pos hk]
    · rw [if_neg hk]; unfold alookup; rw [if_neg hk]; exact ih

/-- Lookup through the key-preserving choices update of
`register_installer`. -/
theorem alookup_map_ite (l : List (Tok × Opt)) (k : Tok) (m newOpt : Opt) :
    alookup (l.map (fun kv => (kv.1, if kv.2 = m then newOpt else kv.2))) k =
      (alookup l k).map (fun v => if v = m then newOpt else v) := by
  induction l with
  | nil => rfl
  | cons kv rest ih =>
    obtain ⟨k0, v0⟩ := kv
    simp only [List.map_cons]
    unfold alookup
    by_cases hk : k0 = k
    · rw [if_pos hk, if_pos hk]; rfl
    · rw [if_neg hk, if_neg hk]; exact ih

/-- A successful `add_option` never disturbs existing map entries. -/
theorem add_option_preserve (p p2 : OptParser) (o : Opt)
    (h : p.add_option o = .ok p2) (k : Tok) (v : Opt)
    (hk : alookup p.options_map k = some v) : alookup p2.options_map k = some v := by
  unfold OptParser.add_option at h
  split at h
  · simp at h; rw [← h]; exact hk
  · split at h
    · exact absurd h (by simp)
    · split at h
      · exact absurd h (by simp)
      · simp at h
        rw [← h]
        dsimp only
        rw [← List.append_assoc]
        exact alookup_append_some _ _ _ _ (alookup_append_some _ _ _ _ hk)

/-- A successful `add_option` never removes values. -/
theorem add_option_values_mono (p p2 : OptParser) (o : Opt)
    (h : p.add_option o = .ok p2) (v : Opt)
    (hv : v ∈ p.options_map.map Prod.snd) : v ∈ p2.options_map.map Prod.snd := by
  unfold OptParser.add_option at h
  split at h
  · simp at h; rw [← h]; exact hv
  · split at h
    · exact absurd h (by simp)
    · split at h
      · exact absurd h (by simp)
      · simp at h
        rw [← h]
        dsimp only
        rw [← List.append_assoc, List.map_append, List.map_append]
        exact List.mem_append_left _ (List.mem_append_left _ hv)

/-- After a successful `add_option` of an option with at least one
spelling, the option is among the parser's values. -/
theorem add_option_mem_values (p p2 : OptParser) (o : Opt)
    (h : p.add_option o = .ok p2)
    (hsp : o.shortopts ≠ [] ∨ o.longopts ≠ []) :
    o ∈ p2.options_map.map Prod.snd := by
  unfold OptParser.add_option at h
  split at h
  · rename_i heq
    simp at h
    rw [← h]
    exact alookup_mem_values _ _ _ heq
  · split at h
    · exact absurd h (by simp)
    · split at h
      · exact absurd h (by simp)
      · simp at h
        rw [← h]
        dsimp only
        rw [← List.append_assoc, List.map_append]
        rcases hsp with hs | hl
        · refine List.mem_append_left _ ?_
          rw [List.map_append]
          refine List.mem_append_right _ ?_
          obtain ⟨c, hc⟩ := List.exists_mem_of_ne_nil _ hs
          rw [List.map_map]
          exact List.mem_map_of_mem _ hc
        · refine List.mem_append_right _ ?_
          obtain ⟨ln, hln⟩ := List.exists_mem_of_ne_nil _ hl
          rw [List.map_map]
          exact List.mem_map_of_mem _ hln

/-- The `addOptions` preserves existing map entries. -/
theorem addOptions_preserve :
    ∀ (opts : List Opt) (p p2 : OptParser),
      addOptions p opts = .ok p2 →
      ∀ (k : Tok) (v : Opt), alookup p.options_map k = some v →
        alookup p2.options_map k = some v := by
  intro opts
  induction opts with
  | nil =>
    intro p p2 h k v hk
    unfold addOptions at h
    injection h with h
    rw [← h]
    exact hk
  | cons o rest ih =>
    intro p p2 h k v hk
    unfold addOptions at h
    cases hadd : p.add_option o with
    | error e => rw [hadd] at h; exact absurd h (by simp)
    | ok p1 =>
      rw [hadd] at h
      exact ih p1 p2 h k v (add_option_preserve p p1 o hadd k v hk)

/-- The `addOptions` preserves values. -/
theorem addOptions_values_mono :
    ∀ (opts : List Opt) (p p2 : OptParser),
      addOptions p opts = .ok p2 →
      ∀ v ∈ p.options_map.map Prod.snd, v ∈ p2.options_map.map Prod.snd := by
  intro opts
  induction opts with
  | nil =>
    intro p p2 h v hv
    unfold addOptions at h
    injection h with h
    rw [← h]
    exact hv
  | cons o rest ih =>
    intro p p2 h v hv
    unfold addOptions at h
    cases hadd : p.add_option o with
    | error e => rw [hadd] at h; exact absurd h (by simp)
    | ok p1 =>
      rw [hadd] at h
      exact ih p1 p2 h v (add_option_values_mono p p1 o hadd v hv)

/-- Every option (with a spelling) passed to `addOptions` ends up among the
parser's values. -/
theorem addOptions_mem_values :
    ∀ (opts : List Opt) (p p2 : OptParser),
      addOptions p opts = .ok p2 →
      ∀ o ∈ opts, (o.shortopts ≠ [] ∨ o.longopts ≠ []) →
        o ∈ p2.options_map.map Prod.snd := by
  intro opts
  induction opts with
  | nil => intro p p2 h o ho; exact absurd ho (by simp)
  | cons o0 rest ih =>
    intro p p2 h o ho hsp
    unfold addOptions at h
    cases hadd : p.add_option o0 with
    | error e => rw [hadd] at h; exact absurd h (by simp)
    | ok p1 =>
      rw [hadd] at h
      rcases List.mem_cons.mp ho with rfl | hrest
      · exact addOptions_values_mono rest p1 p2 h o
          (add_option_mem_values p p1 o hadd hsp)
      · exact ih p1 p2 h o hrest hsp

/-- The three effects of one successful `register_installer` call. -/
theorem register_installer_effects (cs : ComponentState) (inst : InstallerStatic)
    (cs2 : ComponentState) (h : register_installer cs inst = .ok cs2) :
    alookup cs2.INSTALLERS inst.name = some inst ∧
    (∀ (mopt : Opt) (chs : List Tok),
      alookup cs.optParser.options_map (s "--method") = some mopt →
      mopt.choices = some chs →
      alookup cs2.optParser.options_map (s "--method") =
        some { mopt with choices := some (chs ++ [inst.name]) }) ∧
    (∀ o ∈ inst.OPTIONS, (o.shortopts ≠ [] ∨ o.longopts ≠ []) →
      o ∈ cs2.optParser.options_map.map Prod.snd) := by
  unfold register_installer at h
  dsimp only at h
  cases hm0 : alookup cs.optParser.options_map (s "--method") with
  | none => rw [hm0] at h; exact absurd h (by simp)
  | some mopt0 =>
    rw [hm0] at h
    dsimp only at h
    cases hc0 : mopt0.choices with
    | none => rw [hc0] at h; exact absurd h (by simp)
    | some chs0 =>
      rw [hc0] at h
      dsimp only at h
      cases hfold : addOptions
          ({ cs.optParser with
             options_map := cs.optParser.options_map.map
               (fun kv => (kv.1,
                 if kv.2 = mopt0
                 then { mopt0 with choices := some (chs0 ++ [inst.name]) }
                 else kv.2)) }) inst.OPTIONS with
      | error e => rw [hfold] at h; exact absurd h (by simp)
      | ok p2 =>
        rw [hfold] at h
        simp at h
        refine ⟨?_, ?_, ?_⟩
        · rw [← h]
          exact alookup_aset_self _ _ _
        · intro mopt chs hm hc
          have hmopt : mopt = mopt0 := by
            injection hm with h2
            exact h2.symm
          subst hmopt
          have hchs : chs = chs0 := by
            rw [hc0] at hc
            injection hc with h2
            exact h2.symm
          subst hchs
          rw [← h]
          dsimp only
          refine addOptions_preserve _ _ _ hfold _ _ ?_
          dsimp only
          rw [alookup_map_ite, hm0]
          simp
        · intro o ho hsp
          rw [← h]
          dsimp only
          exact addOptions_mem_values _ _ _ hfold o ho hsp

/-- The `registerAll` threads the `--method` choices list, appending each
registered name in order. -/
theorem registerAll_choices :
    ∀ (L : List InstallerStatic) (cs cs2 : ComponentState) (chs : List Tok)
      (mopt : Opt),
      alookup cs.optParser.options_map (s "--method") = some mopt →
      mopt.choices = some chs →
      registerAll cs L = .ok cs2 →
      choicesOf cs2 = some (chs ++ L.map InstallerStatic.name) := by
  intro L
  induction L with
  | nil =>
    intro cs cs2 chs mopt hm hc h
    unfold registerAll at h
    injection h with h
    rw [← h]
    unfold choicesOf
    rw [hm]
    dsimp only
    rw [hc]
    simp
  | cons inst rest ih =>
    intro cs cs2 chs mopt hm hc h
    unfold registerAll at h
    cases hreg : register_installer cs inst with
    | error e => rw [hreg] at h; exact absurd h (by simp)
    | ok cs1 =>
      rw [hreg] at h
      have hstep := (register_installer_effects cs inst cs1 hreg).2.1 mopt chs hm hc
      have := ih cs1 cs2 (chs ++ [inst.name])
        { mopt with choices := some (chs ++ [inst.name]) } hstep rfl h
      simpa using this

/-- C6: registering an installer on an installable component (1) records it
in the component's method registry under its name, (2) appends its name to
the `--method` option's choices, and (3) merges each of its options into
the component's parser; consequently, starting from a fresh installable
component, after any successful sequence of registrations the `--method`
choices are exactly `"auto"` followed by the registered installer names in
registration order. -/
theorem c6_register_installer :
    (∀ (cs : ComponentState) (inst : InstallerStatic) (cs2 : ComponentState),
      register_installer cs inst = .ok cs2 →
      alookup cs2.INSTALLERS inst.name = some inst ∧
      (∀ (mopt : Opt) (chs : List Tok),
        alookup cs.optParser.options_map (s "--method") = some mopt →
        mopt.choices = some chs →
        alookup cs2.optParser.options_map (s "--method") =
          some { mopt with choices := some (chs ++ [inst.name]) }) ∧
      (∀ o ∈ inst.OPTIONS, (o.shortopts ≠ [] ∨ o.longopts ≠ []) →
        o ∈ cs2.optParser.options_map.map Prod.snd)) ∧
    (∀ (name : Tok) (L : List InstallerStatic) (cs2 : ComponentState),
      registerAll (freshInstallableCS name) L = .ok cs2 →
      choicesOf cs2 = some (s "auto" :: L.map InstallerStatic.name)) := by
  constructor
  · exact register_installer_effects
  · intro name L cs2 h
    have := registerAll_choices L (freshInstallableCS name) cs2 [s "auto"] methodOpt
      rfl rfl h
    simpa using this

/-- Witness for `c6_register_installer`: registering apt on the fresh
datalad component records it, and folding the real git-annex installer
sequence yields exactly the thirteen-method choices list the script's help
output shows. -/
theorem c6_register_installer_witness :
    alookup c6StepCS.INSTALLERS aptStatic.name = some aptStatic ∧
    choicesOf gitAnnexCS = some (s "auto" :: gitAnnexInstallers.map InstallerStatic.name) :=
  ⟨(c6_register_installer.1 freshDataladCS aptStatic c6StepCS (by decide)).1,
   c6_register_installer.2 (s "git-annex") gitAnnexInstallers gitAnnexCS (by decide)⟩

/-- The post-check loop conjoins all checks and logs every failure, never
stopping early. -/
theorem postCheckLoop_spec (env : MainEnv) :
    ∀ (cmds : List InstalledCommand) (ok : Bool)
      (fs : List (InstalledCommand × CheckFailure)),
      postCheckLoop env cmds ok fs =
        (ok && cmds.all (fun c => (checkCmd env c).isNone),
         fs ++ cmds.filterMap (fun c => (checkCmd env c).map (fun f => (c, f)))) := by
  intro cmds
  induction cmds with
  | nil => intro ok fs; simp [postCheckLoop]
  | cons c rest ih =>
    intro ok fs
    unfold postCheckLoop
    cases hchk : checkCmd env c with
    | some f =>
      dsimp only
      rw [ih]
      simp [hchk]
    | none =>
      dsimp only
      rw [ih]
      simp [hchk]

/-- C7: `main` returns 2 on a usage error during parsing; 0 on an
`Immediate`; and when every component dispatches without an exception, it
checks every accumulated installed command (recording each failure — a
failing command never stops the checking of the rest) and returns 0
exactly when no check failed, 1 otherwise. -/
theorem c7_main_exit_codes :
    ∀ (env : MainEnv) (args : List Tok),
      (∀ e, DataladInstaller.parse_args args = .error e →
        DataladInstaller.main env args = ⟨.exit 2, [], []⟩) ∧
      (∀ i, DataladInstaller.parse_args args = .ok (.immediate i) →
        DataladInstaller.main env args = ⟨.exit 0, [], []⟩) ∧
      (∀ (g : Dict) (comps tried : List ComponentRequest)
         (cmds : List InstalledCommand),
        DataladInstaller.parse_args args = .ok (.parsed g comps) →
        dispatchLoop env
          (if comps = [] then [(⟨s "datalad", []⟩ : ComponentRequest)] else comps)
          [] [] = (tried, .ok cmds) →
        DataladInstaller.main env args =
          ⟨.exit (if cmds.all (fun c => (checkCmd env c).isNone) then 0 else 1),
           tried,
           cmds.filterMap (fun c => (checkCmd env c).map (fun f => (c, f)))⟩ ∧
        (cmds.all (fun c => (checkCmd env c).isNone) = true ↔
          ∀ c ∈ cmds, checkCmd env c = none)) := by
  intro env args
  refine ⟨?_, ?_, ?_⟩
  · intro e h
    unfold DataladInstaller.main
    rw [h]
  · intro i h
    unfold DataladInstaller.main
    rw [h]
  · intro g comps tried cmds hparse hdisp
    constructor
    · unfold DataladInstaller.main
      rw [hparse]
      dsimp only
      rw [hdisp]
      dsimp only
      rw [postCheckLoop_spec]
      simp
    · simp [List.all_eq_true, Option.isNone_iff_eq_none]

/-- Witness for `c7_main_exit_codes`: with two installed commands of which
the first is missing and the second fails its smoke test, `main` exits 1
and logs both failures. -/
theorem c7_main_exit_codes_witness :
    DataladInstaller.main wEnv [s "datalad"] =
      ⟨.exit (if ([wCmd1, wCmd2].all (fun c => (checkCmd wEnv c).isNone)) then 0 else 1),
       [⟨s "datalad", []⟩],
       [wCmd1, wCmd2].filterMap (fun c => (checkCmd wEnv c).map (fun f => (c, f)))⟩ ∧
    DataladInstaller.main wEnv [s "datalad"] =
      ⟨.exit 1, [⟨s "datalad", []⟩],
       [(wCmd1, .missing), (wCmd2, .testFailed)]⟩ :=
  ⟨((c7_main_exit_codes wEnv [s "datalad"]).2.2 [] [⟨s "datalad", []⟩]
      [⟨s "datalad", []⟩] [wCmd1, wCmd2] (by decide) (by decide)).1,
   by decide⟩

/-- C9: when parsing yields zero component requests, `main` dispatches
exactly `ComponentRequest("datalad")`; and the empty command line is such a
case. -/
theorem c9_default_datalad_component :
    (∀ (env : MainEnv) (args : List Tok) (g : Dict),
      DataladInstaller.parse_args args = .ok (.parsed g []) →
      (DataladInstaller.main env args).dispatched =
        [(⟨s "datalad", []⟩ : ComponentRequest)]) ∧
    DataladInstaller.parse_args [] = .ok (.parsed [] []) := by
  constructor
  · intro env args g h
    unfold DataladInstaller.main
    rw [h]
    dsimp only
    rw [if_pos rfl]
    unfold dispatchLoop
    cases hp : env.provide ⟨s "datalad", []⟩ with
    | error e => simp
    | ok bins =>
      unfold dispatchLoop
      simp
  · decide

/-- Witness for `c9_default_datalad_component`: the empty command line
dispatches the default datalad request. -/
theorem c9_default_datalad_component_witness :
    (DataladInstaller.main wEnv []).dispatched =
      [(⟨s "datalad", []⟩ : ComponentRequest)] :=
  c9_default_datalad_component.1 wEnv [] [] (by decide)

/-- C10: `add_option` is a no-op when an equal option is already registered
under the option's display name; a distinct option reusing any registered
short or long spelling raises `ValueError` (before any insertion — the
checks in the source precede all map writes, so the map is untouched). -/
theorem c10_add_option_idempotent :
    ∀ (p : OptParser) (o : Opt),
      (alookup p.options_map o.option_name = some o → p.add_option o = .ok p) ∧
      (alookup p.options_map o.option_name ≠ some o →
        ((∃ c ∈ o.shortopts, (alookup p.options_map ['-', c]).isSome) ∨
         (∃ l ∈ o.longopts, (alookup p.options_map (s "--" ++ l)).isSome)) →
        ∃ msg, p.add_option o = .error msg) := by
  intro p o
  constructor
  · intro h
    unfold OptParser.add_option
    rw [if_pos h]
  · intro h1 h2
    unfold OptParser.add_option
    rw [if_neg h1]
    cases hfs : o.shortopts.find? (fun c => (alookup p.options_map ['-', c]).isSome) with
    | some c => exact ⟨_, rfl⟩
    | none =>
      cases hfl : o.longopts.find?
          (fun l => (alookup p.options_map (s "--" ++ l)).isSome) with
      | some l => exact ⟨_, rfl⟩
      | none =>
        exfalso
        rcases h2 with ⟨c, hc, hcs⟩ | ⟨l, hl, hls⟩
        · exact absurd hcs (by simpa using List.find?_eq_none.mp hfs c hc)
        · exact absurd hls (by simpa using List.find?_eq_none.mp hfl l hl)

/-- Witness for `c10_add_option_idempotent`: re-adding the shared
`--extra-args` option is a no-op, and a distinct option reusing `-e`
errors. -/
theorem c10_add_option_idempotent_witness :
    c10Parser.add_option EXTRA_ARGS_OPTION = .ok c10Parser ∧
    ∃ msg, c10Parser.add_option c10Conflict = .error msg :=
  ⟨(c10_add_option_idempotent c10Parser EXTRA_ARGS_OPTION).1 (by decide),
   (c10_add_option_idempotent c10Parser c10Conflict).2 (by decide)
     (Or.inl ⟨'e', by decide, by decide⟩)⟩

end DLI
